import Mathlib

/-!
Verification of the signal-generation and adaptive-confidence engine of the
kliktrading repository (src/utils/xaiLogic.ts, src/quant/rlModel.ts,
src/utils/rlAgent.ts).

Modelling conventions:
* JavaScript numbers are modelled as exact rationals (`ℚ`).  Where claims
  concern the non-finite values NaN / Infinity / -Infinity, the type `JSNum`
  extends `ℚ` with those three points; the market-structure detectors are
  defined over `JSNum` exactly as in the source, and the signal pipeline
  injects its (finite) rational data into `JSNum`.
* `Math.round` is `round : ℚ → ℤ`, i.e. `⌊x + 1/2⌋`, which agrees with the
  JavaScript function (round half toward positive infinity).
* Arrays are Lean lists; `Array.prototype.slice` with (possibly negative)
  indices is `jsSlice`; out-of-range element access yields `undefined`,
  which behaves like NaN in every numeric context the code uses, so it is
  modelled by `JSNum.nan`.
* The display-only `explanation` string of a `SignalResult` (pure
  presentation, touched by no claim) is not modelled.
-/

/-- A JavaScript number: a finite rational or one of NaN, +Infinity,
-Infinity. -/
inductive JSNum where
  | fin (q : ℚ)
  | nan
  | inf
  | ninf
deriving DecidableEq, Repr

/-- `Number.isFinite` / `isFinite` on a `JSNum`. -/
def jIsFinite : JSNum → Bool
  | JSNum.fin _ => true
  | _ => false

/-- The rational value of a finite `JSNum` (callers only use it after an
`isFinite` guard, mirroring the source; 0 is an arbitrary value for the
non-finite points). -/
def jval : JSNum → ℚ
  | JSNum.fin q => q
  | _ => 0

/-- JavaScript addition on possibly non-finite numbers. -/
def jadd : JSNum → JSNum → JSNum
  | JSNum.fin a, JSNum.fin b => JSNum.fin (a + b)
  | JSNum.nan, _ => JSNum.nan
  | _, JSNum.nan => JSNum.nan
  | JSNum.inf, JSNum.ninf => JSNum.nan
  | JSNum.ninf, JSNum.inf => JSNum.nan
  | JSNum.inf, _ => JSNum.inf
  | _, JSNum.inf => JSNum.inf
  | JSNum.ninf, _ => JSNum.ninf
  | _, JSNum.ninf => JSNum.ninf

/-- Division of a `JSNum` by a positive integer constant (used for window
averages: `sum / window.length`). -/
def jdivNat (x : JSNum) (n : ℕ) : JSNum :=
  match x with
  | JSNum.fin q => JSNum.fin (q / (n : ℚ))
  | other => other

/-- `Math.max` on two `JSNum`s: NaN-absorbing, otherwise the extended order. -/
def jmax : JSNum → JSNum → JSNum
  | JSNum.nan, _ => JSNum.nan
  | _, JSNum.nan => JSNum.nan
  | JSNum.inf, _ => JSNum.inf
  | _, JSNum.inf => JSNum.inf
  | JSNum.ninf, x => x
  | x, JSNum.ninf => x
  | JSNum.fin a, JSNum.fin b => JSNum.fin (max a b)

/-- `Math.min` on two `JSNum`s. -/
def jmin : JSNum → JSNum → JSNum
  | JSNum.nan, _ => JSNum.nan
  | _, JSNum.nan => JSNum.nan
  | JSNum.ninf, _ => JSNum.ninf
  | _, JSNum.ninf => JSNum.ninf
  | JSNum.inf, x => x
  | x, JSNum.inf => x
  | JSNum.fin a, JSNum.fin b => JSNum.fin (min a b)

/-- JavaScript `<` on possibly non-finite numbers (false whenever NaN is
involved). -/
def jlt : JSNum → JSNum → Bool
  | JSNum.nan, _ => false
  | _, JSNum.nan => false
  | JSNum.fin a, JSNum.fin b => decide (a < b)
  | JSNum.ninf, JSNum.ninf => false
  | JSNum.ninf, _ => true
  | _, JSNum.ninf => false
  | JSNum.inf, _ => false
  | _, JSNum.inf => true

/-- `array[i]`: out-of-range access gives `undefined`, which behaves like
NaN in the numeric positions the code uses it in. -/
def jsGet (l : List JSNum) (i : ℕ) : JSNum :=
  l.getD i JSNum.nan

/-- `Array.prototype.slice(a, b)` with JavaScript index normalisation
(negative indices count from the end, then both are clamped to `[0, len]`). -/
def jsSlice {α : Type} (l : List α) (a b : Int) : List α :=
  let len : Int := l.length
  let norm : Int → ℕ := fun i => ((min (max (if i < 0 then len + i else i) 0) len)).toNat
  (l.take (norm b)).drop (norm a)

/-- `Array.prototype.slice(a)` (one-argument form, end = length). -/
def jsSliceFrom {α : Type} (l : List α) (a : Int) : List α :=
  jsSlice l a l.length

/-- `array.reduce((a, b) => a + b, 0)` on `JSNum`s. -/
def sumJ (l : List JSNum) : JSNum :=
  l.foldl jadd (JSNum.fin 0)

/-- `Math.max(...l)` (the seed `-Infinity` is `Math.max()` of no arguments). -/
def maxJ (l : List JSNum) : JSNum :=
  l.foldl jmax JSNum.ninf

/-- `Math.min(...l)`. -/
def minJ (l : List JSNum) : JSNum :=
  l.foldl jmin JSNum.inf

/-- `Math.max(...l)` over finite rationals; callers guard non-emptiness
(`Math.max()` of an empty spread would be `-Infinity`). -/
def maxQ : List ℚ → ℚ
  | [] => 0
  | x :: xs => xs.foldl max x

/-- `Math.min(...l)` over finite rationals; callers guard non-emptiness. -/
def minQ : List ℚ → ℚ
  | [] => 0
  | x :: xs => xs.foldl min x

/-- Inject a list of finite rationals into `JSNum`. -/
def jfin (l : List ℚ) : List JSNum :=
  l.map JSNum.fin

-- =========================================================
-- Indicator helpers (calculateSMA / calculateEMA / calculateRSI),
-- from src/utils/xaiLogic.ts.
-- =========================================================

/-- `calculateSMA(data, period)`: mean of the last `period` values; shorter
data falls back to the last value; empty data gives 0. -/
def calculateSMA (data : List ℚ) (period : ℕ) : ℚ :=
  if data.length = 0 then 0
  else if data.length < period then data.getLastD 0
  else
    let slice := jsSliceFrom data (-(period : Int))
    slice.foldl (fun a b => a + b) 0 / (slice.length : ℚ)

/-- `calculateEMA(data, period)`: exponential smoothing with
`k = 2 / (period + 1)`, seeded from the first element; empty data gives 0. -/
def calculateEMA (data : List ℚ) (period : ℕ) : ℚ :=
  match data with
  | [] => 0
  | d :: rest =>
    let k : ℚ := 2 / ((period : ℚ) + 1)
    rest.foldl (fun ema x => x * k + ema * (1 - k)) d

/-- `calculateRSI(data, period)`: average-gain / average-loss over the last
`period` deltas; fewer than `period + 1` points gives 50; zero average loss
gives 100. -/
def calculateRSI (data : List ℚ) (period : ℕ) : ℚ :=
  if data.length < period + 1 then 50
  else
    let start := max 1 (data.length - period)
    let window := data.drop (start - 1)
    let diffs := List.zipWith (fun b a => b - a) (window.drop 1) window
    let gl := diffs.foldl
      (fun (p : ℚ × ℚ) d => if 0 < d then (p.1 + d, p.2) else (p.1, p.2 + |d|)) (0, 0)
    let avgGain := gl.1 / (period : ℚ)
    let avgLoss := gl.2 / (period : ℚ)
    if avgLoss = 0 then 100
    else 100 - 100 / (1 + avgGain / avgLoss)

-- =========================================================
-- SMC detection helpers, from src/utils/xaiLogic.ts.
-- =========================================================

/-- The ternary detectors return "BULLISH" | "BEARISH" | null; null is
`Option.none`. -/
inductive Dir where
  | BULLISH
  | BEARISH
deriving DecidableEq, Repr

/-- Trend bias: "BULLISH" | "BEARISH" | "NEUTRAL". -/
inductive Trend where
  | BULLISH
  | BEARISH
  | NEUTRAL
deriving DecidableEq, Repr

/-- Fib zone: "PREMIUM" | "DISCOUNT" | "NEUTRAL". -/
inductive Fib where
  | PREMIUM
  | DISCOUNT
  | NEUTRAL
deriving DecidableEq, Repr

/-- `detectFairValueGap(highs, lows)`. -/
def detectFairValueGap (highs lows : List JSNum) : Bool :=
  if highs.length = 0 ∨ lows.length = 0 then false
  else if highs.length < 3 ∨ lows.length < 3 then false
  else
    let i := highs.length - 3
    let prevHigh := jsGet highs i
    let nextLow := jsGet lows (i + 2)
    if jIsFinite prevHigh = false ∨ jIsFinite nextLow = false ∨ prevHigh = JSNum.fin 0 then false
    else decide (|jval nextLow - jval prevHigh| / |jval prevHigh| > 5 / 1000)

/-- `detectOrderBlock(prices)`. -/
def detectOrderBlock (prices : List JSNum) : Option Dir :=
  if prices.length = 0 ∨ prices.length < 5 then none
  else
    let lastFive := jsSliceFrom prices (-5)
    let avg := jdivNat (sumJ lastFive) lastFive.length
    let recent := jsGet prices (prices.length - 1)
    if jIsFinite recent = false ∨ jIsFinite avg = false then none
    else if jval avg * (101 / 100) < jval recent then some Dir.BULLISH
    else if jval recent < jval avg * (99 / 100) then some Dir.BEARISH
    else none

/-- `detectVolumeSurge(volumes)`. -/
def detectVolumeSurge (volumes : List JSNum) : Bool :=
  if volumes.length = 0 ∨ volumes.length < 10 then false
  else
    let last10 := jsSliceFrom volumes (-10)
    let avg := jdivNat (sumJ last10) last10.length
    let latest := jsGet last10 (last10.length - 1)
    if jIsFinite latest = false ∨ jIsFinite avg = false then false
    else decide (jval avg * (15 / 10) < jval latest)

/-- `detectLiquiditySweep(highs, lows, current)`. -/
def detectLiquiditySweep (highs lows : List JSNum) (current : JSNum) : Option Dir :=
  if highs.length = 0 ∨ lows.length = 0 then none
  else if highs.length < 5 ∨ lows.length < 5 then none
  else
    let recentHigh := maxJ (jsSlice highs (-6) (-1))
    let recentLow := minJ (jsSlice lows (-6) (-1))
    let penultimateHigh := jsGet highs (highs.length - 2)
    let penultimateLow := jsGet lows (lows.length - 2)
    if jIsFinite current = false ∨ jIsFinite recentHigh = false ∨ jIsFinite recentLow = false then none
    else if jval recentHigh * (1001 / 1000) < jval current ∧ jlt current penultimateHigh = true then
      some Dir.BEARISH
    else if jval current < jval recentLow * (999 / 1000) ∧ jlt penultimateLow current = true then
      some Dir.BULLISH
    else none

/-- `detectMitigationBlock(prices)`. -/
def detectMitigationBlock (prices : List JSNum) : Option Dir :=
  if prices.length = 0 ∨ prices.length < 6 then none
  else
    let last := jsGet prices (prices.length - 1)
    let prevLow := minJ (jsSlice prices (-6) (-2))
    let prevHigh := maxJ (jsSlice prices (-6) (-2))
    if jIsFinite last = false ∨ jIsFinite prevLow = false ∨ jIsFinite prevHigh = false then none
    else if jval prevLow * (102 / 100) < jval last ∧ jval last < jval prevHigh then some Dir.BULLISH
    else if jval last < jval prevHigh * (98 / 100) ∧ jval prevLow < jval last then some Dir.BEARISH
    else none

/-- `detectBreakerBlock(prices)`. -/
def detectBreakerBlock (prices : List JSNum) : Option Dir :=
  if prices.length = 0 ∨ prices.length < 10 then none
  else
    let prev5 := jsSlice prices (-10) (-5)
    let last5 := jsSliceFrom prices (-5)
    let prevHigh := maxJ prev5
    let prevLow := minJ prev5
    let currHigh := maxJ last5
    let currLow := minJ last5
    if jIsFinite prevHigh = false ∨ jIsFinite prevLow = false ∨ jIsFinite currHigh = false ∨
        jIsFinite currLow = false then none
    else if jval prevHigh < jval currHigh ∧ jval prevLow < jval currLow then some Dir.BULLISH
    else if jval currLow < jval prevLow ∧ jval currHigh < jval prevHigh then some Dir.BEARISH
    else none

/-- `detectBOS(highs, lows)`. -/
def detectBOS (highs lows : List JSNum) : Option Dir :=
  if highs.length = 0 ∨ lows.length = 0 then none
  else if highs.length < 6 ∨ lows.length < 6 then none
  else
    let prevHigh := jsGet highs (highs.length - 3)
    let currHigh := jsGet highs (highs.length - 1)
    let prevLow := jsGet lows (lows.length - 3)
    let currLow := jsGet lows (lows.length - 1)
    if jIsFinite prevHigh = false ∨ jIsFinite currHigh = false ∨ jIsFinite prevLow = false ∨
        jIsFinite currLow = false then none
    else if jval prevHigh * (1002 / 1000) < jval currHigh then some Dir.BULLISH
    else if jval currLow < jval prevLow * (998 / 1000) then some Dir.BEARISH
    else none

/-- `detectCHoCH(highs, lows)`. -/
def detectCHoCH (highs lows : List JSNum) : Option Dir :=
  if highs.length = 0 ∨ lows.length = 0 then none
  else if highs.length < 8 ∨ lows.length < 8 then none
  else
    let lastHigh := jsGet highs (highs.length - 1)
    let secondLastHigh := jsGet highs (highs.length - 3)
    let lastLow := jsGet lows (lows.length - 1)
    let secondLastLow := jsGet lows (lows.length - 3)
    if jIsFinite lastHigh = false ∨ jIsFinite secondLastHigh = false ∨ jIsFinite lastLow = false ∨
        jIsFinite secondLastLow = false then none
    else
      let brokeHigh := decide (jval secondLastHigh * (1001 / 1000) < jval lastHigh)
      let brokeLow := decide (jval lastLow < jval secondLastLow * (999 / 1000))
      if brokeHigh = true ∧ brokeLow = false then some Dir.BULLISH
      else if brokeLow = true ∧ brokeHigh = false then some Dir.BEARISH
      else none

-- =========================================================
-- SMC confidence engine and helpers, from src/utils/xaiLogic.ts.
-- =========================================================

/-- The input bundle of `computeSMCConfidence`. -/
structure SMCInputs where
  bos : Option Dir
  choch : Option Dir
  orderBlock : Option Dir
  liquiditySweep : Option Dir
  mitigation : Option Dir
  breaker : Option Dir
  hasFVG : Bool
  volumeSurge : Bool
  fibZone : Fib
  trendBias : Trend
deriving DecidableEq, Repr

/-- `computeSMCConfidence(inputs)`: fixed-weight additive score, capped at
99 (`Math.round` on the integral score is the identity). -/
def computeSMCConfidence (inputs : SMCInputs) : ℕ :=
  let score :=
    (if inputs.bos = some Dir.BULLISH ∨ inputs.bos = some Dir.BEARISH then 22 else 0)
    + (if inputs.choch = some Dir.BULLISH ∨ inputs.choch = some Dir.BEARISH then 20 else 0)
    + (if inputs.liquiditySweep.isSome then 12 else 0)
    + (if inputs.volumeSurge then 10 else 0)
    + (if inputs.orderBlock.isSome then 10 else 0)
    + (if inputs.mitigation.isSome then 8 else 0)
    + (if inputs.breaker.isSome then 6 else 0)
    + (if inputs.hasFVG then 5 else 0)
    + (if inputs.fibZone = Fib.DISCOUNT ∧ inputs.trendBias = Trend.BULLISH then 10 else 0)
    + (if inputs.fibZone = Fib.PREMIUM ∧ inputs.trendBias = Trend.BEARISH then 10 else 0)
  min score 99

/-- `getTrendBias(bos, choch)`. -/
def getTrendBias (bos choch : Option Dir) : Trend :=
  if bos = some Dir.BULLISH ∨ choch = some Dir.BULLISH then Trend.BULLISH
  else if bos = some Dir.BEARISH ∨ choch = some Dir.BEARISH then Trend.BEARISH
  else Trend.NEUTRAL

/-- `getFibZone(current, lookbackHigh, lookbackLow)` (the `isFinite` guard
is vacuous in the exact-rational model). -/
def getFibZone (current lookbackHigh lookbackLow : ℚ) : Fib :=
  let mid := lookbackLow + (lookbackHigh - lookbackLow) * (1 / 2)
  if current < mid then Fib.DISCOUNT
  else if mid < current then Fib.PREMIUM
  else Fib.NEUTRAL

-- =========================================================
-- Signal computation (generateSMCSignal), from src/utils/xaiLogic.ts.
-- Each local constant of the source function is a named definition so the
-- theorems can speak about the intermediates.
-- =========================================================

/-- "BUY" | "SELL" | "HOLD". -/
inductive Signal where
  | BUY
  | SELL
  | HOLD
deriving DecidableEq, Repr

/-- "ACTIVE" | "TARGET ✅" | "STOP ❌". -/
inductive HitStatus where
  | ACTIVE
  | TARGET
  | STOP
deriving DecidableEq, Repr

/-- The `StockData` fields `generateSMCSignal` reads (`current`,
`previousClose` and the four backward-compatibility series; a missing
series, `?? []` in the source, is the empty list). -/
structure StockData where
  current : ℚ
  previousClose : ℚ
  prices : List ℚ
  highs : List ℚ
  lows : List ℚ
  volumes : List ℚ
deriving DecidableEq, Repr

/-- The `SignalResult` fields produced by `generateSMCSignal` (the
display-only `explanation` string is not modelled; `finalPrice` and
`resolvedAt` are left absent by the source). -/
structure SignalResult where
  signal : Signal
  stoploss : ℚ
  targets : List ℚ
  confidence : ℤ
  hitStatus : HitStatus
  entryPrice : ℚ
  resolved : Bool
deriving DecidableEq, Repr

/-- `sma20` of `generateSMCSignal`. -/
def sma20Of (s : StockData) : ℚ := calculateSMA s.prices 20

/-- `ema50` of `generateSMCSignal`. -/
def ema50Of (s : StockData) : ℚ := calculateEMA s.prices 50

/-- `ema200` of `generateSMCSignal`. -/
def ema200Of (s : StockData) : ℚ := calculateEMA s.prices 200

/-- `rsi` of `generateSMCSignal`. -/
def rsiOf (s : StockData) : ℚ := calculateRSI s.prices 14

/-- `change` of `generateSMCSignal`. -/
def changeOf (s : StockData) : ℚ :=
  if s.previousClose ≠ 0 then (s.current - s.previousClose) / s.previousClose * 100 else 0

/-- `hasFVG` of `generateSMCSignal`. -/
def hasFVGOf (s : StockData) : Bool := detectFairValueGap (jfin s.highs) (jfin s.lows)

/-- `orderBlock` of `generateSMCSignal`. -/
def orderBlockOf (s : StockData) : Option Dir := detectOrderBlock (jfin s.prices)

/-- `volumeSurge` of `generateSMCSignal`. -/
def volumeSurgeOf (s : StockData) : Bool := detectVolumeSurge (jfin s.volumes)

/-- `liquiditySweep` of `generateSMCSignal`. -/
def liquiditySweepOf (s : StockData) : Option Dir :=
  detectLiquiditySweep (jfin s.highs) (jfin s.lows) (JSNum.fin s.current)

/-- `bos` of `generateSMCSignal`. -/
def bosOf (s : StockData) : Option Dir := detectBOS (jfin s.highs) (jfin s.lows)

/-- `choch` of `generateSMCSignal`. -/
def chochOf (s : StockData) : Option Dir := detectCHoCH (jfin s.highs) (jfin s.lows)

/-- `mitigation` of `generateSMCSignal`. -/
def mitigationOf (s : StockData) : Option Dir := detectMitigationBlock (jfin s.prices)

/-- `breaker` of `generateSMCSignal`. -/
def breakerOf (s : StockData) : Option Dir := detectBreakerBlock (jfin s.prices)

/-- `trendBias` of `generateSMCSignal`. -/
def trendBiasOf (s : StockData) : Trend := getTrendBias (bosOf s) (chochOf s)

/-- `lookbackHigh` of `generateSMCSignal` (20-period lookback on highs). -/
def lookbackHighOf (s : StockData) : ℚ :=
  if s.highs.length ≠ 0 then maxQ (jsSliceFrom s.highs (-20)) else s.current

/-- `lookbackLow` of `generateSMCSignal`. -/
def lookbackLowOf (s : StockData) : ℚ :=
  if s.lows.length ≠ 0 then minQ (jsSliceFrom s.lows (-20)) else s.current

/-- `fibZone` of `generateSMCSignal`. -/
def fibZoneOf (s : StockData) : Fib := getFibZone s.current (lookbackHighOf s) (lookbackLowOf s)

/-- `aboveSMA20` of `generateSMCSignal`. -/
def aboveSMA20Of (s : StockData) : Bool := decide (sma20Of s < s.current)

/-- `aboveEMA50` of `generateSMCSignal`. -/
def aboveEMA50Of (s : StockData) : Bool := decide (ema50Of s < s.current)

/-- `emaBullish` of `generateSMCSignal`. -/
def emaBullishOf (s : StockData) : Bool := decide (ema200Of s < ema50Of s)

/-- `emaBearish` of `generateSMCSignal`. -/
def emaBearishOf (s : StockData) : Bool := decide (ema50Of s < ema200Of s)

/-- `indicatorBuy` of `generateSMCSignal`: price above SMA20 and EMA50,
EMA50 > EMA200, RSI below 70, positive change. -/
def indicatorBuyOf (s : StockData) : Bool :=
  aboveSMA20Of s && aboveEMA50Of s && emaBullishOf s
    && decide (rsiOf s < 70) && decide (0 < changeOf s)

/-- `indicatorSell` of `generateSMCSignal`: the mirrored condition. -/
def indicatorSellOf (s : StockData) : Bool :=
  !aboveSMA20Of s && !aboveEMA50Of s && emaBearishOf s
    && decide (30 < rsiOf s) && decide (changeOf s < 0)

/-- `indicatorScore` of `generateSMCSignal`: the additive indicator
sub-score. -/
def indicatorScoreOf (s : StockData) : ℕ :=
  (if indicatorBuyOf s then 28 else 0)
  + (if indicatorSellOf s then 28 else 0)
  + (if aboveSMA20Of s && aboveEMA50Of s then 6 else 0)
  + (if emaBullishOf s then 4 else 0)
  + (if rsiOf s < 60 then 2 else 0)
  + (if 40 < rsiOf s then 2 else 0)

/-- The detector bundle `generateSMCSignal` hands to
`computeSMCConfidence`. -/
def smcInputsOf (s : StockData) : SMCInputs :=
  { bos := bosOf s, choch := chochOf s, orderBlock := orderBlockOf s,
    liquiditySweep := liquiditySweepOf s, mitigation := mitigationOf s,
    breaker := breakerOf s, hasFVG := hasFVGOf s, volumeSurge := volumeSurgeOf s,
    fibZone := fibZoneOf s, trendBias := trendBiasOf s }

/-- `smcConfidence` of `generateSMCSignal`. -/
def smcConfidenceOf (s : StockData) : ℕ := computeSMCConfidence (smcInputsOf s)

/-- `finalConfidence` of `generateSMCSignal`:
`Math.min(99, Math.round(indicatorScore * 0.4 + smcConfidence * 0.6))`. -/
def finalConfidenceOf (s : StockData) : ℤ :=
  min 99 (round ((indicatorScoreOf s : ℚ) * (4 / 10) + (smcConfidenceOf s : ℚ) * (6 / 10)))

/-- `smcStrongBull` of `generateSMCSignal`. -/
def smcStrongBullOf (s : StockData) : Bool :=
  decide (55 ≤ smcConfidenceOf s)
    && (decide (bosOf s = some Dir.BULLISH) || decide (chochOf s = some Dir.BULLISH))

/-- `smcStrongBear` of `generateSMCSignal`. -/
def smcStrongBearOf (s : StockData) : Bool :=
  decide (55 ≤ smcConfidenceOf s)
    && (decide (bosOf s = some Dir.BEARISH) || decide (chochOf s = some Dir.BEARISH))

/-- The final signal decision of `generateSMCSignal` (`smcBias` is
`trendBias`). -/
def signalOf (s : StockData) : Signal :=
  if (indicatorBuyOf s || decide (18 ≤ indicatorScoreOf s))
      && (decide (trendBiasOf s = Trend.BULLISH) || smcStrongBullOf s) then Signal.BUY
  else if (indicatorSellOf s || decide (18 ≤ indicatorScoreOf s))
      && (decide (trendBiasOf s = Trend.BEARISH) || smcStrongBearOf s) then Signal.SELL
  else Signal.HOLD

/-- `stoploss` of `generateSMCSignal`. -/
def stoplossOf (s : StockData) : ℚ :=
  if signalOf s = Signal.BUY then s.current * (985 / 1000)
  else if signalOf s = Signal.SELL then s.current * (1015 / 1000)
  else s.current

/-- `targets` of `generateSMCSignal`. -/
def targetsOf (s : StockData) : List ℚ :=
  if signalOf s = Signal.BUY then
    [s.current * (101 / 100), s.current * (102 / 100), s.current * (103 / 100)]
  else if signalOf s = Signal.SELL then
    [s.current * (99 / 100), s.current * (98 / 100), s.current * (97 / 100)]
  else [s.current]

/-- `generateSMCSignal(stock)`. -/
def generateSMCSignal (stock : StockData) : SignalResult :=
  { signal := signalOf stock, stoploss := stoplossOf stock, targets := targetsOf stock,
    confidence := finalConfidenceOf stock, hitStatus := HitStatus.ACTIVE,
    entryPrice := stock.current, resolved := false }

-- =========================================================
-- Adaptive reward model (ReinforcementModel), from src/quant/rlModel.ts.
-- The per-instrument record store is a map from symbol to optional record.
-- =========================================================

/-- "WIN" | "LOSS". -/
inductive Outcome where
  | WIN
  | LOSS
deriving DecidableEq, Repr

/-- The per-instrument record `{ wins, losses, rewardWeight }`. -/
structure RLMemory where
  wins : ℕ
  losses : ℕ
  rewardWeight : ℚ
deriving DecidableEq, Repr

/-- The `memory` field of `ReinforcementModel`: symbol → optional record. -/
def Memory : Type := String → Option RLMemory

/-- A model with no records (fresh construction, nothing persisted). -/
def emptyMemory : Memory := fun _ => none

/-- One record transition of `ReinforcementModel.update` after the record
exists: WIN bumps `wins` and raises the weight by 0.05 capped at 2; LOSS
bumps `losses` and lowers it by 0.05 floored at 0.5. -/
def stepMem (m : RLMemory) (result : Outcome) : RLMemory :=
  match result with
  | Outcome.WIN => { wins := m.wins + 1, losses := m.losses, rewardWeight := min (m.rewardWeight + 1 / 20) 2 }
  | Outcome.LOSS => { wins := m.wins, losses := m.losses + 1, rewardWeight := max (m.rewardWeight - 1 / 20) (1 / 2) }

/-- `ReinforcementModel.update(symbol, result)`: creates the record lazily
with `{ wins: 0, losses: 0, rewardWeight: 1 }` and applies the
transition. -/
def update (mem : Memory) (symbol : String) (result : Outcome) : Memory :=
  let m0 := (mem symbol).getD { wins := 0, losses := 0, rewardWeight := 1 }
  fun s => if s = symbol then some (stepMem m0 result) else mem s

/-- `ReinforcementModel.getWeight(symbol)`: 1 for unseen instruments. -/
def getWeight (mem : Memory) (symbol : String) : ℚ :=
  match mem symbol with
  | some m => m.rewardWeight
  | none => 1

/-- A finite sequence of `update` calls for one instrument. -/
def applyOutcomes (mem : Memory) (symbol : String) (outcomes : List Outcome) : Memory :=
  outcomes.foldl (fun m r => update m symbol r) mem

-- =========================================================
-- Tabular policy (rlAgent), from src/utils/rlAgent.ts.
-- The Q-table loaded from storage is passed in as data, standing for the
-- awaited result of `loadQTable()`.
-- =========================================================

/-- The RL context handed to the policy. -/
structure RLContext where
  rsi : ℚ
  ema50 : ℚ
  ema200 : ℚ
  trendBias : Trend
  smcConfidence : ℚ
  sma20 : ℚ
  signal : Signal
deriving DecidableEq, Repr

/-- The `bucket` helper of `encodeState`: first index `i` with
`v <= steps[i]`, else `steps.length`. -/
def bucket (v : ℚ) (steps : List ℚ) : ℕ :=
  steps.findIdx (fun s => decide (v ≤ s))

/-- `ctx.trendBias[0]`: the first character of the trend-bias string
("BULLISH" and "BEARISH" both start with 'B'). -/
def trendChar : Trend → Char
  | Trend.BULLISH => 'B'
  | Trend.BEARISH => 'B'
  | Trend.NEUTRAL => 'N'

/-- `encodeState(ctx)`. -/
def encodeState (ctx : RLContext) : String :=
  let r := bucket ctx.rsi [30, 40, 50, 60, 70]
  let trend := trendChar ctx.trendBias
  let smc := bucket ctx.smcConfidence [20, 40, 60, 80]
  "r" ++ toString r ++ "_t" ++ String.singleton trend ++ "_smc" ++ toString smc

/-- The loaded Q-table `Record<string, number[]>`, as an association
list. -/
def QTable : Type := List (String × List ℚ)

/-- `q.indexOf(x)`: first index of `x`, or -1 when absent. -/
def jsIndexOf (l : List ℚ) (x : ℚ) : ℤ :=
  let i := l.findIdx (fun y => y == x)
  if i < l.length then (i : ℤ) else -1

/-- `bestAction(q)`: index of the maximum, and
`Math.round(max / total * 100)` where `total` is the positive-part sum
with `|| 1` guarding zero.  (`Math.max` of the empty spread would be
`-Infinity`; the function is only ever applied to the 3-element action
vectors, where the head-seeded fold agrees with it.) -/
def bestAction (q : List ℚ) : ℤ × ℤ :=
  let m := maxQ q
  let idx := jsIndexOf q m
  let t := q.foldl (fun a b => a + max b 0) 0
  let total := if t = 0 then 1 else t
  (idx, round (m / total * 100))

/-- The policy response of `policyFromContext`. -/
structure PolicyResult where
  signal : Signal
  confidence : ℤ
  qvals : List ℚ
  state : String
  mode : String
deriving DecidableEq, Repr

/-- `policyFromContext(ctx)` with the awaited Q-table passed as data: look
the encoded state up; if absent, synthesize the deterministic bootstrap
action vector from trend bias and structure confidence; pick the best
action.  (`mapping[action]` with the in-range indices produced here; the
`getD` default is never reached on 3-element vectors.) -/
def policyFromContext (qtable : QTable) (ctx : RLContext) : PolicyResult :=
  let state := encodeState ctx
  let lookup := (qtable.find? (fun p => p.1 == state)).map (fun p => p.2)
  let qvals :=
    match lookup with
    | some v => v
    | none =>
      let bias : ℕ := if ctx.trendBias = Trend.BULLISH then 2
        else if ctx.trendBias = Trend.BEARISH then 0 else 1
      let smcFactor := ctx.smcConfidence / 100
      [smcFactor * (if bias = 0 then 12 / 10 else 7 / 10),
       smcFactor * (5 / 10),
       smcFactor * (if bias = 2 then 13 / 10 else 8 / 10)]
  let ba := bestAction qvals
  let mapping : List Signal := [Signal.SELL, Signal.HOLD, Signal.BUY]
  { signal := mapping.getD ba.1.toNat Signal.HOLD, confidence := ba.2, qvals := qvals,
    state := state, mode := if qtable.length > 0 then "TRAINED" else "BOOTSTRAP" }

-- =========================================================
-- Concrete inputs used by counterexamples and witnesses.
-- =========================================================

/-- A stock whose indicator context fully agrees on BUY with RSI in the
(40, 60) band. -/
def c2buy : StockData :=
  { current := 3, previousClose := 1, prices := [1, 2], highs := [], lows := [], volumes := [] }

/-- The mirrored SELL configuration of `c2buy`. -/
def c2sell : StockData :=
  { current := 1, previousClose := 3, prices := [3, 2], highs := [], lows := [], volumes := [] }

/-- A completely flat input: `n` copies of `v` in every series, current and
previous close equal to `v`. -/
def flatStock (v : ℚ) (n : ℕ) : StockData :=
  { current := v, previousClose := v, prices := List.replicate n v, highs := List.replicate n v,
    lows := List.replicate n v, volumes := List.replicate n v }

/-- An RL context with NEUTRAL trend bias and positive structure
confidence. -/
def c8ctx : RLContext :=
  { rsi := 50, ema50 := 0, ema200 := 0, trendBias := Trend.NEUTRAL, smcConfidence := 30,
    sma20 := 0, signal := Signal.HOLD }

-- =========================================================
-- Shared helper lemmas.
-- =========================================================

lemma round_mono_q {x y : ℚ} (h : x ≤ y) : round x ≤ round y := by
  rw [round_eq, round_eq]
  exact Int.floor_le_floor (by linarith)

lemma maxQ_three (a b c : ℚ) : maxQ [a, b, c] = max (max a b) c := by
  simp [maxQ, List.foldl]

lemma posSum_three (a b c : ℚ) :
    [a, b, c].foldl (fun u v => u + max v 0) 0 = max a 0 + max b 0 + max c 0 := by
  simp [List.foldl]

/-- `bestAction` on a 3-vector picks the first index attaining the
maximum. -/
lemma bestAction_fst_three (a b c : ℚ) :
    (bestAction [a, b, c]).1 = if b ≤ a ∧ c ≤ a then 0 else if c ≤ b then 1 else 2 := by
  by_cases h1 : b ≤ a ∧ c ≤ a
  · obtain ⟨hb, hc⟩ := h1
    have hm : maxQ [a, b, c] = a := by
      rw [maxQ_three, max_eq_left hb, max_eq_left hc]
    simp [bestAction, hm, jsIndexOf, List.findIdx_cons, hb, hc]
  · have hab : a < b ∨ a < c := by
      rcases not_and_or.mp h1 with h | h
      · exact Or.inl (lt_of_not_le h)
      · exact Or.inr (lt_of_not_le h)
    by_cases h2 : c ≤ b
    · have haltb : a < b := by
        rcases hab with h | h
        · exact h
        · exact lt_of_lt_of_le h h2
      have hm : maxQ [a, b, c] = b := by
        rw [maxQ_three, max_eq_right (le_of_lt haltb), max_eq_left h2]
      have hne : (a == b) = false := by
        simp [ne_of_lt haltb]
      simp [bestAction, hm, jsIndexOf, List.findIdx_cons, hne, h1, h2]
    · have hbltc : b < c := lt_of_not_le h2
      have haltc : a < c := by
        rcases hab with h | h
        · exact lt_trans h hbltc
        · exact h
      have hm : maxQ [a, b, c] = c := by
        rw [maxQ_three]
        rw [max_eq_right]
        exact max_le (le_of_lt haltc) (le_of_lt hbltc)
      have hne1 : (a == c) = false := by
        simp [ne_of_lt haltc]
      have hne2 : (b == c) = false := by
        simp [ne_of_lt hbltc]
      simp [bestAction, hm, jsIndexOf, List.findIdx_cons, hne1, hne2, h1, h2]

/-- The confidence component of `bestAction` on a 3-vector, written with
the explicit positive-part sum. -/
lemma bestAction_snd_three (a b c : ℚ) :
    (bestAction [a, b, c]).2 =
      round (max (max a b) c /
        (if max a 0 + max b 0 + max c 0 = 0 then 1 else max a 0 + max b 0 + max c 0) * 100) := by
  simp only [bestAction, maxQ_three, posSum_three]

-- =========================================================
-- Claim theorems.
-- =========================================================

/-- Claim C9: for every StockData input, `generateSMCSignal` returns
hitStatus ACTIVE, resolved = false, and entryPrice equal to the input's
current price — signal generation never evaluates target-hit or stop-hit
status. -/
theorem generateSMCSignal_always_active (s : StockData) :
    (generateSMCSignal s).hitStatus = HitStatus.ACTIVE ∧
      (generateSMCSignal s).resolved = false ∧
      (generateSMCSignal s).entryPrice = s.current :=
  ⟨rfl, rfl, rfl⟩

theorem generateSMCSignal_always_active_witness :
    (generateSMCSignal (flatStock 1 1)).hitStatus = HitStatus.ACTIVE ∧
      (generateSMCSignal (flatStock 1 1)).resolved = false ∧
      (generateSMCSignal (flatStock 1 1)).entryPrice = (flatStock 1 1).current :=
  generateSMCSignal_always_active (flatStock 1 1)

/-- Claim C10: `bestAction` breaks ties by lowest index (SELL = 0 over
HOLD = 1 over BUY = 2), and the all-zero action vector yields action 0
(SELL) with confidence 0. -/
theorem bestAction_tie_lowest_index (a b c : ℚ) :
    ((b ≤ a ∧ c ≤ a) → (bestAction [a, b, c]).1 = 0) ∧
    ((a < b ∧ c ≤ b) → (bestAction [a, b, c]).1 = 1) ∧
    ((a < c ∧ b < c) → (bestAction [a, b, c]).1 = 2) ∧
    bestAction [(0 : ℚ), 0, 0] = (0, 0) := by
  refine ⟨?_, ?_, ?_, ?_⟩
  · intro h
    rw [bestAction_fst_three, if_pos h]
  · intro h
    rw [bestAction_fst_three, if_neg, if_pos h.2]
    intro hc
    exact absurd h.1 (not_lt.mpr hc.1)
  · intro h
    rw [bestAction_fst_three, if_neg, if_neg (not_le.mpr h.2)]
    intro hc
    exact absurd h.1 (not_lt.mpr hc.2)
  · norm_num [bestAction, maxQ, jsIndexOf, List.findIdx_cons, List.foldl, round_eq]

theorem bestAction_tie_lowest_index_witness :
    (bestAction [(1 : ℚ), 1, 1]).1 = 0 :=
  (bestAction_tie_lowest_index 1 1 1).1 ⟨le_refl 1, le_refl 1⟩

/-- Claim C3 counterexample: on the all-negative vector [-1, -1, -1] the
confidence is -100, outside [0, 100] (the code divides the raw maximum,
not its positive part, by the floored denominator). -/
theorem bestAction_negative_confidence_counterexample :
    (bestAction [(-1 : ℚ), -1, -1]).2 = -100 ∧
      ¬(0 ≤ (bestAction [(-1 : ℚ), -1, -1]).2) := by
  norm_num [bestAction, maxQ, jsIndexOf, List.findIdx_cons, List.foldl, round_eq]

/-- Claim C3 (amended): `bestAction` returns the first argmax index over
the 3 action values, and confidence `round(100 × max / total)` where
`total` is the positive-part sum floored at 1 when zero; the confidence
lies in [0, 100] whenever the maximum is nonnegative, while for an
all-negative vector it equals `round(100 × max)`, which is at most 0. -/
theorem bestAction_argmax_confidence (a b c : ℚ) :
    ((bestAction [a, b, c]).1 = 0 ∨ (bestAction [a, b, c]).1 = 1 ∨
      (bestAction [a, b, c]).1 = 2) ∧
    [a, b, c].getD (bestAction [a, b, c]).1.toNat 0 = max a (max b c) ∧
    (bestAction [a, b, c]).2 =
      round (max a (max b c) /
        (if max a 0 + max b 0 + max c 0 = 0 then 1
         else max a 0 + max b 0 + max c 0) * 100) ∧
    (0 ≤ max a (max b c) →
      0 ≤ (bestAction [a, b, c]).2 ∧ (bestAction [a, b, c]).2 ≤ 100) ∧
    (max a (max b c) < 0 →
      (bestAction [a, b, c]).2 = round (100 * max a (max b c)) ∧
        (bestAction [a, b, c]).2 ≤ 0) := by
  have hsnd := bestAction_snd_three a b c
  have hassoc : max (max a b) c = max a (max b c) := max_assoc a b c
  have ht0 : (0 : ℚ) ≤ max a 0 := le_max_right a 0
  have ht1 : (0 : ℚ) ≤ max b 0 := le_max_right b 0
  have ht2 : (0 : ℚ) ≤ max c 0 := le_max_right c 0
  refine ⟨?_, ?_, ?_, ?_, ?_⟩
  · rw [bestAction_fst_three]
    split_ifs <;> simp
  · rw [bestAction_fst_three]
    by_cases h1 : b ≤ a ∧ c ≤ a
    · rw [if_pos h1]
      have h0 : ((0 : ℤ)).toNat = 0 := rfl
      rw [h0, List.getD_cons_zero]
      exact (max_eq_left (max_le h1.1 h1.2)).symm
    · have hab : a < b ∨ a < c := by
        rcases not_and_or.mp h1 with h | h
        · exact Or.inl (lt_of_not_le h)
        · exact Or.inr (lt_of_not_le h)
      by_cases h2 : c ≤ b
      · have haltb : a < b := by
          rcases hab with h | h
          · exact h
          · exact lt_of_lt_of_le h h2
        rw [if_neg h1, if_pos h2]
        have h0 : ((1 : ℤ)).toNat = 1 := rfl
        rw [h0, List.getD_cons_succ, List.getD_cons_zero]
        rw [max_eq_left h2, max_eq_right (le_of_lt haltb)]
      · have hbltc : b < c := lt_of_not_le h2
        have haltc : a < c := by
          rcases hab with h | h
          · exact lt_trans h hbltc
          · exact h
        rw [if_neg h1, if_neg h2]
        have h0 : ((2 : ℤ)).toNat = 2 := rfl
        rw [h0, List.getD_cons_succ, List.getD_cons_succ, List.getD_cons_zero]
        rw [max_eq_right (le_of_lt hbltc), max_eq_right (le_of_lt haltc)]
  · rw [hsnd, hassoc]
  · intro h
    rw [hsnd, hassoc]
    by_cases ht : max a 0 + max b 0 + max c 0 = 0
    · have hm0 : max a (max b c) = 0 := by
        have haz : a ≤ 0 := by
          have := le_max_left a 0
          linarith
        have hbz : b ≤ 0 := by
          have := le_max_left b 0
          linarith
        have hcz : c ≤ 0 := by
          have := le_max_left c 0
          linarith
        exact le_antisymm (max_le haz (max_le hbz hcz)) h
      rw [if_pos ht, hm0]
      norm_num
    · have htpos : 0 < max a 0 + max b 0 + max c 0 :=
        lt_of_le_of_ne (by linarith) (Ne.symm ht)
      have hat : a ≤ max a 0 + max b 0 + max c 0 := by
        have := le_max_left a 0
        linarith
      have hbt : b ≤ max a 0 + max b 0 + max c 0 := by
        have := le_max_left b 0
        linarith
      have hct : c ≤ max a 0 + max b 0 + max c 0 := by
        have := le_max_left c 0
        linarith
      have hmt : max a (max b c) ≤ max a 0 + max b 0 + max c 0 :=
        max_le hat (max_le hbt hct)
      rw [if_neg ht]
      constructor
      · have : (0 : ℤ) = round (0 : ℚ) := by norm_num
        rw [this]
        apply round_mono_q
        positivity
      · have h100 : round (100 : ℚ) = 100 := by
          norm_num [round_eq]
        rw [← h100]
        apply round_mono_q
        have hdiv : max a (max b c) / (max a 0 + max b 0 + max c 0) ≤ 1 :=
          (div_le_one htpos).mpr hmt
        nlinarith
  · intro h
    have haz : a < 0 := lt_of_le_of_lt (le_max_left a (max b c)) h
    have hbz : b < 0 := lt_of_le_of_lt (le_trans (le_max_left b c) (le_max_right a (max b c))) h
    have hcz : c < 0 := lt_of_le_of_lt (le_trans (le_max_right b c) (le_max_right a (max b c))) h
    have ht : max a 0 + max b 0 + max c 0 = 0 := by
      rw [max_eq_right haz.le, max_eq_right hbz.le, max_eq_right hcz.le]
      norm_num
    constructor
    · rw [hsnd, hassoc, if_pos ht]
      congr 1
      ring
    · rw [hsnd, hassoc, if_pos ht]
      have : (0 : ℤ) = round (0 : ℚ) := by norm_num
      rw [this]
      apply round_mono_q
      nlinarith

theorem bestAction_argmax_confidence_witness :
    0 ≤ max (1 : ℚ) (max 2 3) ∧
      0 ≤ (bestAction [(1 : ℚ), 2, 3]).2 ∧ (bestAction [(1 : ℚ), 2, 3]).2 ≤ 100 := by
  have h := (bestAction_argmax_confidence 1 2 3).2.2.2.1 (by norm_num)
  exact ⟨by norm_num, h.1, h.2⟩

lemma bestAction_bootstrap_vec (s : ℚ) (hs : 0 < s) :
    (bestAction [s * (7 / 10), s * (5 / 10), s * (8 / 10)]).1 = 2 ∧
      (bestAction [s * (7 / 10), s * (5 / 10), s * (8 / 10)]).2 = 40 := by
  have h57 : s * (5 / 10) ≤ s * (7 / 10) := by nlinarith
  have h78 : s * (7 / 10) < s * (8 / 10) := by nlinarith
  have h58 : s * (5 / 10) < s * (8 / 10) := by nlinarith
  constructor
  · have hA : ¬(s * (5 / 10) ≤ s * (7 / 10) ∧ s * (8 / 10) ≤ s * (7 / 10)) :=
      fun h => absurd h.2 (not_le.mpr h78)
    have hB : ¬(s * (8 / 10) ≤ s * (5 / 10)) := not_le.mpr h58
    rw [bestAction_fst_three, if_neg hA, if_neg hB]
  · rw [bestAction_snd_three]
    have hmax : max (max (s * (7 / 10)) (s * (5 / 10))) (s * (8 / 10)) = s * (8 / 10) := by
      rw [max_eq_left h57, max_eq_right (le_of_lt h78)]
    have hp1 : max (s * (7 / 10)) 0 = s * (7 / 10) := max_eq_left (by positivity)
    have hp2 : max (s * (5 / 10)) 0 = s * (5 / 10) := max_eq_left (by positivity)
    have hp3 : max (s * (8 / 10)) 0 = s * (8 / 10) := max_eq_left (by positivity)
    rw [hmax, hp1, hp2, hp3]
    have htne : s * (7 / 10) + s * (5 / 10) + s * (8 / 10) ≠ 0 := by positivity
    rw [if_neg htne]
    have hdiv : s * (8 / 10) / (s * (7 / 10) + s * (5 / 10) + s * (8 / 10)) = 2 / 5 := by
      rw [show s * (7 / 10) + s * (5 / 10) + s * (8 / 10) = s * 2 by ring]
      rw [show s * (8 / 10) = (2 / 5) * (s * 2) by ring]
      exact mul_div_cancel_right₀ _ (by positivity)
    rw [hdiv]
    norm_num [round_eq]

lemma policyFromContext_signal_eq (qt : QTable) (ctx : RLContext) :
    (policyFromContext qt ctx).signal =
      [Signal.SELL, Signal.HOLD, Signal.BUY].getD
        (bestAction (policyFromContext qt ctx).qvals).1.toNat Signal.HOLD := rfl

lemma policyFromContext_confidence_eq (qt : QTable) (ctx : RLContext) :
    (policyFromContext qt ctx).confidence = (bestAction (policyFromContext qt ctx).qvals).2 := rfl

/-- Claim C8: for every RLContext whose encoded state is absent from the
loaded Q-table, with NEUTRAL trend bias and strictly positive smcConfidence,
`policyFromContext` synthesizes the bootstrap vector [0.7s, 0.5s, 0.8s]
(s = smcConfidence/100), whose argmax is index 2, so the signal is BUY with
confidence 40. -/
theorem policyFromContext_bootstrap_neutral (qt : QTable) (ctx : RLContext)
    (hq : qt.find? (fun p => p.1 == encodeState ctx) = none)
    (hn : ctx.trendBias = Trend.NEUTRAL)
    (hs : 0 < ctx.smcConfidence) :
    (policyFromContext qt ctx).qvals =
      [ctx.smcConfidence / 100 * (7 / 10), ctx.smcConfidence / 100 * (5 / 10),
        ctx.smcConfidence / 100 * (8 / 10)] ∧
    (bestAction (policyFromContext qt ctx).qvals).1 = 2 ∧
    (policyFromContext qt ctx).signal = Signal.BUY ∧
    (policyFromContext qt ctx).confidence = 40 := by
  have hspos : 0 < ctx.smcConfidence / 100 := by positivity
  have hcore := bestAction_bootstrap_vec (ctx.smcConfidence / 100) hspos
  have hqv : (policyFromContext qt ctx).qvals =
      [ctx.smcConfidence / 100 * (7 / 10), ctx.smcConfidence / 100 * (5 / 10),
        ctx.smcConfidence / 100 * (8 / 10)] := by
    simp only [policyFromContext, hq, hn, Option.map_none]
    rfl
  have hsig : (policyFromContext qt ctx).signal = Signal.BUY := by
    rw [policyFromContext_signal_eq, hqv, hcore.1]
    rfl
  have hconf : (policyFromContext qt ctx).confidence = 40 := by
    rw [policyFromContext_confidence_eq, hqv]
    exact hcore.2
  exact ⟨hqv, by rw [hqv]; exact hcore.1, hsig, hconf⟩

theorem policyFromContext_bootstrap_neutral_witness :
    ([] : QTable).find? (fun p => p.1 == encodeState c8ctx) = none ∧
      c8ctx.trendBias = Trend.NEUTRAL ∧ 0 < c8ctx.smcConfidence ∧
      (policyFromContext [] c8ctx).signal = Signal.BUY ∧
      (policyFromContext [] c8ctx).confidence = 40 := by
  have h := policyFromContext_bootstrap_neutral [] c8ctx rfl rfl (by norm_num [c8ctx])
  exact ⟨rfl, rfl, by norm_num [c8ctx], h.2.2.1, h.2.2.2⟩

/-- Claim C2 counterexample: a concrete full-agreement BUY input scores 42
(28 + 6 + 4 + 2 + 2), above the claimed 0-40 range, while its mirrored
SELL input scores only 32 — the +6/+4 partial bonuses are not mirrored. -/
theorem indicatorScore_range_counterexample :
    indicatorScoreOf c2buy = 42 ∧ ¬(indicatorScoreOf c2buy ≤ 40) ∧
      indicatorScoreOf c2sell = 32 := by
  refine ⟨?_, ?_, ?_⟩ <;>
    norm_num [indicatorScoreOf, indicatorBuyOf, indicatorSellOf, aboveSMA20Of, aboveEMA50Of,
      emaBullishOf, emaBearishOf, sma20Of, ema50Of, ema200Of, rsiOf, changeOf, calculateSMA,
      calculateEMA, calculateRSI, c2buy, c2sell, List.foldl, List.getLastD]

/-- Claim C2 (amended): the indicator sub-score lies in [0, 42]; +28 is
assigned for full indicator agreement for BUY (price above SMA20 and EMA50,
EMA50 > EMA200, RSI < 70, positive change) and +28 for the mirrored SELL
agreement, and these are mutually exclusive; the smaller additive bonuses
+6 (price above SMA20 and EMA50), +4 (EMA50 > EMA200), +2 (RSI < 60),
+2 (RSI > 40) are applied in fixed directions, not mirrored per side. -/
theorem indicatorScore_bounds (s : StockData) :
    indicatorScoreOf s ≤ 42 ∧
    ¬(indicatorBuyOf s = true ∧ indicatorSellOf s = true) ∧
    (indicatorBuyOf s = true ↔
      (sma20Of s < s.current ∧ ema50Of s < s.current ∧ ema200Of s < ema50Of s ∧
        rsiOf s < 70 ∧ 0 < changeOf s)) ∧
    (indicatorSellOf s = true ↔
      (¬(sma20Of s < s.current) ∧ ¬(ema50Of s < s.current) ∧ ema50Of s < ema200Of s ∧
        30 < rsiOf s ∧ changeOf s < 0)) ∧
    indicatorScoreOf s =
      (if indicatorBuyOf s then 28 else 0) + (if indicatorSellOf s then 28 else 0)
        + (if aboveSMA20Of s && aboveEMA50Of s then 6 else 0)
        + (if emaBullishOf s then 4 else 0)
        + (if rsiOf s < 60 then 2 else 0) + (if 40 < rsiOf s then 2 else 0) := by
  have hbuy : indicatorBuyOf s = true ↔
      (sma20Of s < s.current ∧ ema50Of s < s.current ∧ ema200Of s < ema50Of s ∧
        rsiOf s < 70 ∧ 0 < changeOf s) := by
    simp [indicatorBuyOf, aboveSMA20Of, aboveEMA50Of, emaBullishOf, and_assoc]
  have hsell : indicatorSellOf s = true ↔
      (¬(sma20Of s < s.current) ∧ ¬(ema50Of s < s.current) ∧ ema50Of s < ema200Of s ∧
        30 < rsiOf s ∧ changeOf s < 0) := by
    simp [indicatorSellOf, aboveSMA20Of, aboveEMA50Of, emaBearishOf, and_assoc]
  have hexcl : ¬(indicatorBuyOf s = true ∧ indicatorSellOf s = true) := by
    rintro ⟨hb, hs2⟩
    have h1 := (hbuy.mp hb).2.2.2.2
    have h2 := (hsell.mp hs2).2.2.2.2
    linarith
  refine ⟨?_, hexcl, hbuy, hsell, rfl⟩
  by_cases hb : indicatorBuyOf s = true <;> by_cases hs2 : indicatorSellOf s = true
  · exact absurd ⟨hb, hs2⟩ hexcl
  · rw [Bool.not_eq_true] at hs2
    unfold indicatorScoreOf
    simp [hb, hs2]
    split_ifs <;> omega
  · rw [Bool.not_eq_true] at hb
    unfold indicatorScoreOf
    simp [hb, hs2]
    split_ifs <;> omega
  · rw [Bool.not_eq_true] at hb hs2
    unfold indicatorScoreOf
    simp [hb, hs2]
    split_ifs <;> omega

theorem indicatorScore_bounds_witness :
    indicatorScoreOf c2buy ≤ 42 ∧ ¬(indicatorBuyOf c2buy = true ∧ indicatorSellOf c2buy = true) :=
  ⟨(indicatorScore_bounds c2buy).1, (indicatorScore_bounds c2buy).2.1⟩

lemma applyOutcomes_append (mem : Memory) (symbol : String) (l : List Outcome) (r : Outcome) :
    applyOutcomes mem symbol (l ++ [r]) = update (applyOutcomes mem symbol l) symbol r := by
  unfold applyOutcomes
  rw [List.foldl_append]
  rfl

lemma getWeight_update_win (mem : Memory) (symbol : String) :
    getWeight (update mem symbol Outcome.WIN) symbol = min (getWeight mem symbol + 1 / 20) 2 := by
  unfold update getWeight stepMem
  cases h : mem symbol <;> simp [h]

lemma getWeight_update_loss (mem : Memory) (symbol : String) :
    getWeight (update mem symbol Outcome.LOSS) symbol =
      max (getWeight mem symbol - 1 / 20) (1 / 2) := by
  unfold update getWeight stepMem
  cases h : mem symbol <;> simp [h]

lemma getWeight_bounds (symbol : String) (l : List Outcome) :
    1 / 2 ≤ getWeight (applyOutcomes emptyMemory symbol l) symbol ∧
      getWeight (applyOutcomes emptyMemory symbol l) symbol ≤ 2 := by
  induction l using List.reverseRecOn with
  | nil =>
    simp [applyOutcomes, getWeight, emptyMemory]
    norm_num
  | append_singleton xs x ih =>
    rw [applyOutcomes_append]
    cases x with
    | WIN =>
      rw [getWeight_update_win]
      constructor
      · exact le_min (by linarith [ih.1]) (by norm_num)
      · exact min_le_right _ _
    | LOSS =>
      rw [getWeight_update_loss]
      constructor
      · exact le_max_right _ _
      · exact max_le (by linarith [ih.2]) (by norm_num)

/-- Claim C5: starting from no record, the reward weight after any sequence
of WIN/LOSS updates stays in [0.5, 2]; a WIN step is exactly
`min (w + 0.05) 2` (hence non-decreasing and capped at 2), a LOSS step is
exactly `max (w - 0.05) 0.5` (hence non-increasing and floored at 0.5), and
the first update lazily creates the record `{wins 0, losses 0, weight 1}`
before applying the transition. -/
theorem rewardWeight_invariant (symbol : String) (l : List Outcome) (r : Outcome) :
    (1 / 2 ≤ getWeight (applyOutcomes emptyMemory symbol l) symbol ∧
      getWeight (applyOutcomes emptyMemory symbol l) symbol ≤ 2) ∧
    getWeight (applyOutcomes emptyMemory symbol (l ++ [Outcome.WIN])) symbol =
      min (getWeight (applyOutcomes emptyMemory symbol l) symbol + 1 / 20) 2 ∧
    getWeight (applyOutcomes emptyMemory symbol l) symbol ≤
      getWeight (applyOutcomes emptyMemory symbol (l ++ [Outcome.WIN])) symbol ∧
    getWeight (applyOutcomes emptyMemory symbol (l ++ [Outcome.LOSS])) symbol =
      max (getWeight (applyOutcomes emptyMemory symbol l) symbol - 1 / 20) (1 / 2) ∧
    getWeight (applyOutcomes emptyMemory symbol (l ++ [Outcome.LOSS])) symbol ≤
      getWeight (applyOutcomes emptyMemory symbol l) symbol ∧
    applyOutcomes emptyMemory symbol [r] symbol =
      some (stepMem { wins := 0, losses := 0, rewardWeight := 1 } r) := by
  have hb := getWeight_bounds symbol l
  have hwin : getWeight (applyOutcomes emptyMemory symbol (l ++ [Outcome.WIN])) symbol =
      min (getWeight (applyOutcomes emptyMemory symbol l) symbol + 1 / 20) 2 := by
    rw [applyOutcomes_append, getWeight_update_win]
  have hloss : getWeight (applyOutcomes emptyMemory symbol (l ++ [Outcome.LOSS])) symbol =
      max (getWeight (applyOutcomes emptyMemory symbol l) symbol - 1 / 20) (1 / 2) := by
    rw [applyOutcomes_append, getWeight_update_loss]
  refine ⟨hb, hwin, ?_, hloss, ?_, ?_⟩
  · rw [hwin]
    exact le_min (by linarith) hb.2
  · rw [hloss]
    exact max_le (by linarith) hb.1
  · simp [applyOutcomes, update, emptyMemory]

theorem rewardWeight_invariant_witness :
    1 / 2 ≤ getWeight (applyOutcomes emptyMemory "X" [Outcome.WIN, Outcome.WIN]) "X" ∧
      getWeight (applyOutcomes emptyMemory "X" [Outcome.WIN, Outcome.WIN]) "X" ≤ 2 :=
  (rewardWeight_invariant "X" [Outcome.WIN, Outcome.WIN] Outcome.WIN).1

/-- The all-off detector bundle: every detector at its no-signal value,
neutral fib zone and trend bias. -/
def smcOff : SMCInputs :=
  { bos := none, choch := none, orderBlock := none, liquiditySweep := none, mitigation := none,
    breaker := none, hasFVG := false, volumeSurge := false, fibZone := Fib.NEUTRAL,
    trendBias := Trend.NEUTRAL }

/-- Claim C6: `computeSMCConfidence` is an additive score with the fixed
weights BOS 22, CHoCH 20, liquidity sweep 12, volume surge 10, order block
10, mitigation 8, breaker 6, FVG 5, +10 for discount+bullish or
premium+bearish alignment; it always lies in [0, 99], and flipping any
single detector from its no-signal value to a firing value never decreases
the result. -/
theorem computeSMCConfidence_bounds_weights_mono :
    (∀ inp : SMCInputs, computeSMCConfidence inp ≤ 99) ∧
    computeSMCConfidence smcOff = 0 ∧
    (∀ (d : Dir), computeSMCConfidence { smcOff with bos := some d } = 22) ∧
    (∀ (d : Dir), computeSMCConfidence { smcOff with choch := some d } = 20) ∧
    (∀ (d : Dir), computeSMCConfidence { smcOff with liquiditySweep := some d } = 12) ∧
    computeSMCConfidence { smcOff with volumeSurge := true } = 10 ∧
    (∀ (d : Dir), computeSMCConfidence { smcOff with orderBlock := some d } = 10) ∧
    (∀ (d : Dir), computeSMCConfidence { smcOff with mitigation := some d } = 8) ∧
    (∀ (d : Dir), computeSMCConfidence { smcOff with breaker := some d } = 6) ∧
    computeSMCConfidence { smcOff with hasFVG := true } = 5 ∧
    computeSMCConfidence { smcOff with fibZone := Fib.DISCOUNT, trendBias := Trend.BULLISH } = 10 ∧
    computeSMCConfidence { smcOff with fibZone := Fib.PREMIUM, trendBias := Trend.BEARISH } = 10 ∧
    (∀ (inp : SMCInputs) (d : Dir), computeSMCConfidence { inp with bos := none } ≤
      computeSMCConfidence { inp with bos := some d }) ∧
    (∀ (inp : SMCInputs) (d : Dir), computeSMCConfidence { inp with choch := none } ≤
      computeSMCConfidence { inp with choch := some d }) ∧
    (∀ (inp : SMCInputs) (d : Dir), computeSMCConfidence { inp with orderBlock := none } ≤
      computeSMCConfidence { inp with orderBlock := some d }) ∧
    (∀ (inp : SMCInputs) (d : Dir), computeSMCConfidence { inp with liquiditySweep := none } ≤
      computeSMCConfidence { inp with liquiditySweep := some d }) ∧
    (∀ (inp : SMCInputs) (d : Dir), computeSMCConfidence { inp with mitigation := none } ≤
      computeSMCConfidence { inp with mitigation := some d }) ∧
    (∀ (inp : SMCInputs) (d : Dir), computeSMCConfidence { inp with breaker := none } ≤
      computeSMCConfidence { inp with breaker := some d }) ∧
    (∀ inp : SMCInputs, computeSMCConfidence { inp with hasFVG := false } ≤
      computeSMCConfidence { inp with hasFVG := true }) ∧
    (∀ inp : SMCInputs, computeSMCConfidence { inp with volumeSurge := false } ≤
      computeSMCConfidence { inp with volumeSurge := true }) := by
  refine ⟨?_, by decide, ?_, ?_, ?_, by decide, ?_, ?_, ?_, by decide, by decide, by decide,
    ?_, ?_, ?_, ?_, ?_, ?_, ?_, ?_⟩
  · intro inp
    exact min_le_right _ _
  · intro d; cases d <;> decide
  · intro d; cases d <;> decide
  · intro d; cases d <;> decide
  · intro d; cases d <;> decide
  · intro d; cases d <;> decide
  · intro d; cases d <;> decide
  · intro inp d
    cases d <;> simp [computeSMCConfidence]
  · intro inp d
    cases d <;> simp [computeSMCConfidence]
  · intro inp d
    cases d <;> simp [computeSMCConfidence]
  · intro inp d
    cases d <;> simp [computeSMCConfidence]
  · intro inp d
    cases d <;> simp [computeSMCConfidence]
  · intro inp d
    cases d <;> simp [computeSMCConfidence]
  · intro inp
    simp [computeSMCConfidence]
  · intro inp
    simp [computeSMCConfidence]

/-- Claim C1: `generateSMCSignal` emits BUY only if (full indicator BUY
agreement OR indicatorScore ≥ 18) AND (trend bias BULLISH OR structure
confidence ≥ 55 with BOS/CHoCH BULLISH); SELL is the mirror; otherwise it
emits HOLD; in particular the signal is HOLD whenever the trend bias is
NEUTRAL and the structure confidence is below 55. -/
theorem generateSMCSignal_decision_gate (s : StockData) :
    ((generateSMCSignal s).signal = Signal.BUY →
      (indicatorBuyOf s = true ∨ 18 ≤ indicatorScoreOf s) ∧
      (trendBiasOf s = Trend.BULLISH ∨
        (55 ≤ smcConfidenceOf s ∧
          (bosOf s = some Dir.BULLISH ∨ chochOf s = some Dir.BULLISH)))) ∧
    ((generateSMCSignal s).signal = Signal.SELL →
      (indicatorSellOf s = true ∨ 18 ≤ indicatorScoreOf s) ∧
      (trendBiasOf s = Trend.BEARISH ∨
        (55 ≤ smcConfidenceOf s ∧
          (bosOf s = some Dir.BEARISH ∨ chochOf s = some Dir.BEARISH)))) ∧
    (¬((indicatorBuyOf s = true ∨ 18 ≤ indicatorScoreOf s) ∧
        (trendBiasOf s = Trend.BULLISH ∨
          (55 ≤ smcConfidenceOf s ∧
            (bosOf s = some Dir.BULLISH ∨ chochOf s = some Dir.BULLISH)))) →
      ¬((indicatorSellOf s = true ∨ 18 ≤ indicatorScoreOf s) ∧
        (trendBiasOf s = Trend.BEARISH ∨
          (55 ≤ smcConfidenceOf s ∧
            (bosOf s = some Dir.BEARISH ∨ chochOf s = some Dir.BEARISH)))) →
      (generateSMCSignal s).signal = Signal.HOLD) ∧
    (trendBiasOf s = Trend.NEUTRAL → smcConfidenceOf s < 55 →
      (generateSMCSignal s).signal = Signal.HOLD) := by
  have hsig : (generateSMCSignal s).signal = signalOf s := rfl
  have hbuyiff : ((indicatorBuyOf s || decide (18 ≤ indicatorScoreOf s))
        && (decide (trendBiasOf s = Trend.BULLISH) || smcStrongBullOf s)) = true ↔
      ((indicatorBuyOf s = true ∨ 18 ≤ indicatorScoreOf s) ∧
        (trendBiasOf s = Trend.BULLISH ∨
          (55 ≤ smcConfidenceOf s ∧
            (bosOf s = some Dir.BULLISH ∨ chochOf s = some Dir.BULLISH)))) := by
    simp [smcStrongBullOf, Bool.and_eq_true, Bool.or_eq_true, decide_eq_true_eq]
  have hselliff : ((indicatorSellOf s || decide (18 ≤ indicatorScoreOf s))
        && (decide (trendBiasOf s = Trend.BEARISH) || smcStrongBearOf s)) = true ↔
      ((indicatorSellOf s = true ∨ 18 ≤ indicatorScoreOf s) ∧
        (trendBiasOf s = Trend.BEARISH ∨
          (55 ≤ smcConfidenceOf s ∧
            (bosOf s = some Dir.BEARISH ∨ chochOf s = some Dir.BEARISH)))) := by
    simp [smcStrongBearOf, Bool.and_eq_true, Bool.or_eq_true, decide_eq_true_eq]
  have hhold : ∀ (h1 : ¬((indicatorBuyOf s = true ∨ 18 ≤ indicatorScoreOf s) ∧
        (trendBiasOf s = Trend.BULLISH ∨
          (55 ≤ smcConfidenceOf s ∧
            (bosOf s = some Dir.BULLISH ∨ chochOf s = some Dir.BULLISH)))))
      (h2 : ¬((indicatorSellOf s = true ∨ 18 ≤ indicatorScoreOf s) ∧
        (trendBiasOf s = Trend.BEARISH ∨
          (55 ≤ smcConfidenceOf s ∧
            (bosOf s = some Dir.BEARISH ∨ chochOf s = some Dir.BEARISH))))),
      signalOf s = Signal.HOLD := by
    intro h1 h2
    unfold signalOf
    rw [if_neg (fun hc => h1 (hbuyiff.mp hc)), if_neg (fun hc => h2 (hselliff.mp hc))]
  refine ⟨?_, ?_, ?_, ?_⟩
  · intro h
    rw [hsig] at h
    unfold signalOf at h
    by_cases hc1 : ((indicatorBuyOf s || decide (18 ≤ indicatorScoreOf s))
        && (decide (trendBiasOf s = Trend.BULLISH) || smcStrongBullOf s)) = true
    · exact hbuyiff.mp hc1
    · rw [if_neg hc1] at h
      by_cases hc2 : ((indicatorSellOf s || decide (18 ≤ indicatorScoreOf s))
          && (decide (trendBiasOf s = Trend.BEARISH) || smcStrongBearOf s)) = true
      · rw [if_pos hc2] at h
        exact absurd h (by decide)
      · rw [if_neg hc2] at h
        exact absurd h (by decide)
  · intro h
    rw [hsig] at h
    unfold signalOf at h
    by_cases hc2 : ((indicatorSellOf s || decide (18 ≤ indicatorScoreOf s))
        && (decide (trendBiasOf s = Trend.BEARISH) || smcStrongBearOf s)) = true
    · exact hselliff.mp hc2
    · by_cases hc1 : ((indicatorBuyOf s || decide (18 ≤ indicatorScoreOf s))
          && (decide (trendBiasOf s = Trend.BULLISH) || smcStrongBullOf s)) = true
      · rw [if_pos hc1] at h
        exact absurd h (by decide)
      · rw [if_neg hc1, if_neg hc2] at h
        exact absurd h (by decide)
  · intro h1 h2
    rw [hsig]
    exact hhold h1 h2
  · intro hn hlt
    rw [hsig]
    apply hhold
    · rintro ⟨_, hb | hstrong⟩
      · rw [hn] at hb
        exact absurd hb (by decide)
      · exact absurd hstrong.1 (not_le.mpr hlt)
    · rintro ⟨_, hb | hstrong⟩
      · rw [hn] at hb
        exact absurd hb (by decide)
      · exact absurd hstrong.1 (not_le.mpr hlt)

theorem generateSMCSignal_decision_gate_witness :
    (generateSMCSignal (flatStock 1 1)).signal = Signal.HOLD := by
  have htrend : trendBiasOf (flatStock 1 1) = Trend.NEUTRAL := by
    norm_num [trendBiasOf, getTrendBias, bosOf, chochOf, detectBOS, detectCHoCH, jfin, flatStock]
    decide
  have hsmc : smcConfidenceOf (flatStock 1 1) < 55 := by
    norm_num [smcConfidenceOf, computeSMCConfidence, smcInputsOf, bosOf, chochOf, orderBlockOf,
      liquiditySweepOf, mitigationOf, breakerOf, hasFVGOf, volumeSurgeOf, detectBOS, detectCHoCH,
      detectOrderBlock, detectLiquiditySweep, detectMitigationBlock, detectBreakerBlock,
      detectFairValueGap, detectVolumeSurge, jfin, flatStock, trendBiasOf, getTrendBias,
      fibZoneOf, getFibZone, lookbackHighOf, lookbackLowOf, maxQ, minQ, jsSliceFrom, jsSlice]
    decide
  exact (generateSMCSignal_decision_gate (flatStock 1 1)).2.2.2 htrend hsmc

-- Helper lemmas about finiteness propagation through the JSNum folds.

lemma jIsFinite_jadd (a b : JSNum) :
    jIsFinite (jadd a b) = true ↔ jIsFinite a = true ∧ jIsFinite b = true := by
  cases a <;> cases b <;> simp [jadd, jIsFinite]

lemma jIsFinite_foldl_jadd (l : List JSNum) (acc : JSNum) :
    jIsFinite (l.foldl jadd acc) = true ↔
      jIsFinite acc = true ∧ ∀ x ∈ l, jIsFinite x = true := by
  induction l generalizing acc with
  | nil => simp
  | cons y ys ih =>
    rw [List.foldl_cons, ih]
    rw [jIsFinite_jadd]
    constructor
    · rintro ⟨⟨h1, h2⟩, h3⟩
      exact ⟨h1, by
        intro x hx
        rcases List.mem_cons.mp hx with h | h
        · rw [h]; exact h2
        · exact h3 x h⟩
    · rintro ⟨h1, h2⟩
      exact ⟨⟨h1, h2 y (List.mem_cons_self y ys)⟩, fun x hx => h2 x (List.mem_cons_of_mem y hx)⟩

lemma jIsFinite_sumJ_false (l : List JSNum) (x : JSNum) (hx : x ∈ l)
    (h : jIsFinite x = false) : jIsFinite (sumJ l) = false := by
  rcases Bool.eq_false_or_eq_true (jIsFinite (sumJ l)) with ht | hf
  · have := ((jIsFinite_foldl_jadd l (JSNum.fin 0)).mp ht).2 x hx
    rw [h] at this
    exact absurd this (by simp)
  · exact hf

lemma jIsFinite_jdivNat (x : JSNum) (n : ℕ) : jIsFinite (jdivNat x n) = jIsFinite x := by
  cases x <;> rfl

lemma foldl_jmax_bad (l : List JSNum) (acc : JSNum)
    (hacc : acc = JSNum.nan ∨ acc = JSNum.inf) :
    jIsFinite (l.foldl jmax acc) = false := by
  induction l generalizing acc with
  | nil => rcases hacc with h | h <;> simp [h, jIsFinite]
  | cons y ys ih =>
    rw [List.foldl_cons]
    apply ih
    rcases hacc with h | h <;> subst h <;> cases y <;> simp [jmax]

lemma mem_foldl_jmax_bad (l : List JSNum) (x : JSNum) (hx : x ∈ l)
    (hbad : x = JSNum.nan ∨ x = JSNum.inf) (acc : JSNum) :
    jIsFinite (l.foldl jmax acc) = false := by
  induction l generalizing acc with
  | nil => cases hx
  | cons y ys ih =>
    rw [List.foldl_cons]
    rcases List.mem_cons.mp hx with h | h
    · subst h
      apply foldl_jmax_bad
      rcases hbad with h | h <;> subst h <;> cases acc <;> simp [jmax]
    · exact ih h _

lemma maxJ_bad (l : List JSNum) (x : JSNum) (hx : x ∈ l)
    (hbad : x = JSNum.nan ∨ x = JSNum.inf) : jIsFinite (maxJ l) = false :=
  mem_foldl_jmax_bad l x hx hbad JSNum.ninf

lemma foldl_jmin_bad (l : List JSNum) (acc : JSNum)
    (hacc : acc = JSNum.nan ∨ acc = JSNum.ninf) :
    jIsFinite (l.foldl jmin acc) = false := by
  induction l generalizing acc with
  | nil => rcases hacc with h | h <;> simp [h, jIsFinite]
  | cons y ys ih =>
    rw [List.foldl_cons]
    apply ih
    rcases hacc with h | h <;> subst h <;> cases y <;> simp [jmin]

lemma mem_foldl_jmin_bad (l : List JSNum) (x : JSNum) (hx : x ∈ l)
    (hbad : x = JSNum.nan ∨ x = JSNum.ninf) (acc : JSNum) :
    jIsFinite (l.foldl jmin acc) = false := by
  induction l generalizing acc with
  | nil => cases hx
  | cons y ys ih =>
    rw [List.foldl_cons]
    rcases List.mem_cons.mp hx with h | h
    · subst h
      apply foldl_jmin_bad
      rcases hbad with h | h <;> subst h <;> cases acc <;> simp [jmin]
    · exact ih h _

lemma minJ_bad (l : List JSNum) (x : JSNum) (hx : x ∈ l)
    (hbad : x = JSNum.nan ∨ x = JSNum.ninf) : jIsFinite (minJ l) = false :=
  mem_foldl_jmin_bad l x hx hbad JSNum.inf

/-- Claim C7 counterexample: a NaN at a position `detectFairValueGap` never
reads still lets it report a gap, and a -Infinity inside the window
`detectLiquiditySweep` reads (where it only weakens the maximum) still lets
it report BULLISH — "non-finite input" does not imply the no-signal value. -/
theorem detectors_nonfinite_counterexample :
    detectFairValueGap [JSNum.fin 1, JSNum.nan, JSNum.fin 1]
        [JSNum.fin 1, JSNum.fin 1, JSNum.fin (11 / 10)] = true ∧
      detectLiquiditySweep [JSNum.fin 1, JSNum.fin 1, JSNum.fin 1, JSNum.ninf, JSNum.fin 1]
        [JSNum.fin (-1), JSNum.fin (-1), JSNum.fin (-1), JSNum.fin (-1), JSNum.fin (-1)]
        (JSNum.fin (-1999 / 2000)) = some Dir.BULLISH ∧
      JSNum.nan ∈ [JSNum.fin 1, JSNum.nan, JSNum.fin 1] ∧
      JSNum.ninf ∈ jsSlice [JSNum.fin 1, JSNum.fin 1, JSNum.fin 1, JSNum.ninf, JSNum.fin 1] (-6) (-1) := by
  refine ⟨?_, ?_, by simp, by decide⟩
  · norm_num [detectFairValueGap, jsGet, jIsFinite, jval]
    rw [abs_of_pos (by norm_num : (0 : ℚ) < 1 / 10)]
    norm_num
  · norm_num [detectLiquiditySweep, jsGet, jsSlice, jIsFinite, jval, maxJ, minJ, jmax, jmin,
      jlt, List.foldl]

/-- Claim C7 (amended): every detector is a total function; each requires a
minimum window length between 3 and 10 (FVG 3, order block 5, liquidity
sweep 5, mitigation 6, BOS 6, CHoCH 8, volume surge 10, breaker 10) and
returns its no-signal value on any shorter (including empty) input.  A
non-finite value among the entries a detector actually reads also forces
the no-signal value, with the one exception of `detectLiquiditySweep`,
where only NaN anywhere in a read window, +Infinity in the highs window,
-Infinity in the lows window, or a non-finite current price are guaranteed
to abstain; non-finite values at unread positions may leave the result
unchanged. -/
theorem detectors_min_window_nonfinite :
    (∀ highs lows : List JSNum, highs.length < 3 ∨ lows.length < 3 →
      detectFairValueGap highs lows = false) ∧
    (∀ highs lows : List JSNum,
      jIsFinite (jsGet highs (highs.length - 3)) = false ∨
        jIsFinite (jsGet lows (highs.length - 3 + 2)) = false →
      detectFairValueGap highs lows = false) ∧
    (∀ prices : List JSNum, prices.length < 5 → detectOrderBlock prices = none) ∧
    (∀ (prices : List JSNum) (x : JSNum), x ∈ jsSliceFrom prices (-5) →
      jIsFinite x = false → detectOrderBlock prices = none) ∧
    (∀ volumes : List JSNum, volumes.length < 10 → detectVolumeSurge volumes = false) ∧
    (∀ (volumes : List JSNum) (x : JSNum), x ∈ jsSliceFrom volumes (-10) →
      jIsFinite x = false → detectVolumeSurge volumes = false) ∧
    (∀ (highs lows : List JSNum) (current : JSNum), highs.length < 5 ∨ lows.length < 5 →
      detectLiquiditySweep highs lows current = none) ∧
    (∀ (highs lows : List JSNum) (current : JSNum), jIsFinite current = false →
      detectLiquiditySweep highs lows current = none) ∧
    (∀ (highs lows : List JSNum) (current x : JSNum), x ∈ jsSlice highs (-6) (-1) →
      x = JSNum.nan ∨ x = JSNum.inf → detectLiquiditySweep highs lows current = none) ∧
    (∀ (highs lows : List JSNum) (current x : JSNum), x ∈ jsSlice lows (-6) (-1) →
      x = JSNum.nan ∨ x = JSNum.ninf → detectLiquiditySweep highs lows current = none) ∧
    (∀ prices : List JSNum, prices.length < 6 → detectMitigationBlock prices = none) ∧
    (∀ prices : List JSNum, jIsFinite (jsGet prices (prices.length - 1)) = false →
      detectMitigationBlock prices = none) ∧
    (∀ (prices : List JSNum) (x : JSNum), x ∈ jsSlice prices (-6) (-2) →
      jIsFinite x = false → detectMitigationBlock prices = none) ∧
    (∀ prices : List JSNum, prices.length < 10 → detectBreakerBlock prices = none) ∧
    (∀ (prices : List JSNum) (x : JSNum),
      (x ∈ jsSlice prices (-10) (-5) ∨ x ∈ jsSliceFrom prices (-5)) →
      jIsFinite x = false → detectBreakerBlock prices = none) ∧
    (∀ highs lows : List JSNum, highs.length < 6 ∨ lows.length < 6 →
      detectBOS highs lows = none) ∧
    (∀ highs lows : List JSNum,
      jIsFinite (jsGet highs (highs.length - 3)) = false ∨
        jIsFinite (jsGet highs (highs.length - 1)) = false ∨
        jIsFinite (jsGet lows (lows.length - 3)) = false ∨
        jIsFinite (jsGet lows (lows.length - 1)) = false →
      detectBOS highs lows = none) ∧
    (∀ highs lows : List JSNum, highs.length < 8 ∨ lows.length < 8 →
      detectCHoCH highs lows = none) ∧
    (∀ highs lows : List JSNum,
      jIsFinite (jsGet highs (highs.length - 1)) = false ∨
        jIsFinite (jsGet highs (highs.length - 3)) = false ∨
        jIsFinite (jsGet lows (lows.length - 1)) = false ∨
        jIsFinite (jsGet lows (lows.length - 3)) = false →
      detectCHoCH highs lows = none) := by
  refine ⟨?_, ?_, ?_, ?_, ?_, ?_, ?_, ?_, ?_, ?_, ?_, ?_, ?_, ?_, ?_, ?_, ?_, ?_, ?_⟩
  · intro highs lows h
    simp only [detectFairValueGap]
    split_ifs with g1 <;> rfl
  · intro highs lows h
    simp only [detectFairValueGap]
    split_ifs with g1 g2 g3 <;> try rfl
    rcases h with h | h
    · exact absurd (Or.inl h) g3
    · exact absurd (Or.inr (Or.inl h)) g3
  · intro prices h
    simp only [detectOrderBlock]
    rw [if_pos (Or.inr h)]
  · intro prices x hx hxf
    have hbad : jIsFinite (jdivNat (sumJ (jsSliceFrom prices (-5)))
        (jsSliceFrom prices (-5)).length) = false := by
      rw [jIsFinite_jdivNat]
      exact jIsFinite_sumJ_false _ x hx hxf
    simp only [detectOrderBlock]
    split_ifs with g1 g2 g3 g4 <;> first | rfl | exact absurd (Or.inr hbad) g2
  · intro volumes h
    simp only [detectVolumeSurge]
    rw [if_pos (Or.inr h)]
  · intro volumes x hx hxf
    have hbad : jIsFinite (jdivNat (sumJ (jsSliceFrom volumes (-10)))
        (jsSliceFrom volumes (-10)).length) = false := by
      rw [jIsFinite_jdivNat]
      exact jIsFinite_sumJ_false _ x hx hxf
    simp only [detectVolumeSurge]
    split_ifs with g1 g2 <;> first | rfl | exact absurd (Or.inr hbad) g2
  · intro highs lows current h
    simp only [detectLiquiditySweep]
    split_ifs with g1 <;> rfl
  · intro highs lows current h
    simp only [detectLiquiditySweep]
    split_ifs with g1 g2 g3 g4 g5 <;> first | rfl | exact absurd (Or.inl h) g3
  · intro highs lows current x hx hbadkind
    have hbad : jIsFinite (maxJ (jsSlice highs (-6) (-1))) = false :=
      maxJ_bad _ x hx hbadkind
    simp only [detectLiquiditySweep]
    split_ifs with g1 g2 g3 g4 g5 <;> first | rfl | exact absurd (Or.inr (Or.inl hbad)) g3
  · intro highs lows current x hx hbadkind
    have hbad : jIsFinite (minJ (jsSlice lows (-6) (-1))) = false :=
      minJ_bad _ x hx hbadkind
    simp only [detectLiquiditySweep]
    split_ifs with g1 g2 g3 g4 g5 <;> first | rfl | exact absurd (Or.inr (Or.inr hbad)) g3
  · intro prices h
    simp only [detectMitigationBlock]
    rw [if_pos (Or.inr h)]
  · intro prices h
    simp only [detectMitigationBlock]
    split_ifs with g1 g2 g3 g4 <;> first | rfl | exact absurd (Or.inl h) g2
  · intro prices x hx hxf
    simp only [detectMitigationBlock]
    cases x with
    | fin q => simp [jIsFinite] at hxf
    | nan =>
      have hbad : jIsFinite (maxJ (jsSlice prices (-6) (-2))) = false :=
        maxJ_bad _ _ hx (Or.inl rfl)
      split_ifs with g1 g2 g3 g4 <;> first | rfl | exact absurd (Or.inr (Or.inr hbad)) g2
    | inf =>
      have hbad : jIsFinite (maxJ (jsSlice prices (-6) (-2))) = false :=
        maxJ_bad _ _ hx (Or.inr rfl)
      split_ifs with g1 g2 g3 g4 <;> first | rfl | exact absurd (Or.inr (Or.inr hbad)) g2
    | ninf =>
      have hbad : jIsFinite (minJ (jsSlice prices (-6) (-2))) = false :=
        minJ_bad _ _ hx (Or.inr rfl)
      split_ifs with g1 g2 g3 g4 <;> first | rfl | exact absurd (Or.inr (Or.inl hbad)) g2
  · intro prices h
    simp only [detectBreakerBlock]
    rw [if_pos (Or.inr h)]
  · intro prices x hor hxf
    simp only [detectBreakerBlock]
    rcases hor with hx | hx
    · cases x with
      | fin q => simp [jIsFinite] at hxf
      | nan =>
        have hbad : jIsFinite (maxJ (jsSlice prices (-10) (-5))) = false :=
          maxJ_bad _ _ hx (Or.inl rfl)
        split_ifs with g1 g2 g3 g4 <;> first | rfl | exact absurd (Or.inl hbad) g2
      | inf =>
        have hbad : jIsFinite (maxJ (jsSlice prices (-10) (-5))) = false :=
          maxJ_bad _ _ hx (Or.inr rfl)
        split_ifs with g1 g2 g3 g4 <;> first | rfl | exact absurd (Or.inl hbad) g2
      | ninf =>
        have hbad : jIsFinite (minJ (jsSlice prices (-10) (-5))) = false :=
          minJ_bad _ _ hx (Or.inr rfl)
        split_ifs with g1 g2 g3 g4 <;> first | rfl | exact absurd (Or.inr (Or.inl hbad)) g2
    · cases x with
      | fin q => simp [jIsFinite] at hxf
      | nan =>
        have hbad : jIsFinite (maxJ (jsSliceFrom prices (-5))) = false :=
          maxJ_bad _ _ hx (Or.inl rfl)
        split_ifs with g1 g2 g3 g4 <;> first | rfl | exact absurd (Or.inr (Or.inr (Or.inl hbad))) g2
      | inf =>
        have hbad : jIsFinite (maxJ (jsSliceFrom prices (-5))) = false :=
          maxJ_bad _ _ hx (Or.inr rfl)
        split_ifs with g1 g2 g3 g4 <;> first | rfl | exact absurd (Or.inr (Or.inr (Or.inl hbad))) g2
      | ninf =>
        have hbad : jIsFinite (minJ (jsSliceFrom prices (-5))) = false :=
          minJ_bad _ _ hx (Or.inr rfl)
        split_ifs with g1 g2 g3 g4 <;> first | rfl |
          exact absurd (Or.inr (Or.inr (Or.inr hbad))) g2
  · intro highs lows h
    simp only [detectBOS]
    split_ifs with g1 <;> rfl
  · intro highs lows h
    simp only [detectBOS]
    split_ifs with g1 g2 <;> rfl
  · intro highs lows h
    simp only [detectCHoCH]
    split_ifs with g1 <;> rfl
  · intro highs lows h
    simp only [detectCHoCH]
    split_ifs with g1 g2 <;> rfl

theorem detectors_min_window_nonfinite_witness :
    detectFairValueGap [] [] = false ∧ detectOrderBlock [JSNum.nan] = none ∧
      detectVolumeSurge [] = false ∧ detectLiquiditySweep [] [] (JSNum.fin 1) = none ∧
      detectMitigationBlock [] = none ∧ detectBreakerBlock [] = none ∧
      detectBOS [] [] = none ∧ detectCHoCH [] [] = none := by
  refine ⟨?_, ?_, ?_, ?_, ?_, ?_, ?_, ?_⟩
  · exact detectors_min_window_nonfinite.1 [] [] (by norm_num)
  · exact detectors_min_window_nonfinite.2.2.1 [JSNum.nan] (by norm_num)
  · exact detectors_min_window_nonfinite.2.2.2.2.1 [] (by norm_num)
  · exact detectors_min_window_nonfinite.2.2.2.2.2.2.1 [] [] (JSNum.fin 1) (by norm_num)
  · exact detectors_min_window_nonfinite.2.2.2.2.2.2.2.2.2.2.1 [] (by norm_num)
  · exact detectors_min_window_nonfinite.2.2.2.2.2.2.2.2.2.2.2.2.2.1 [] (by norm_num)
  · exact detectors_min_window_nonfinite.2.2.2.2.2.2.2.2.2.2.2.2.2.2.2.1 [] [] (by norm_num)
  · exact detectors_min_window_nonfinite.2.2.2.2.2.2.2.2.2.2.2.2.2.2.2.2.2.1 [] [] (by norm_num)

-- Helper lemmas for flat (constant) inputs.

lemma jsSliceFrom_replicate {α : Type} (n m : ℕ) (x : α) (hm : 1 ≤ m) :
    jsSliceFrom (List.replicate n x) (-(m : ℤ)) = List.replicate (min m n) x := by
  simp only [jsSliceFrom, jsSlice, List.length_replicate]
  rw [if_pos (by omega : -(m : ℤ) < 0), if_neg (by omega : ¬((n : ℤ) < 0))]
  rw [List.take_replicate, List.drop_replicate]
  congr 1
  omega

lemma jsSlice_replicate_negs {α : Type} (n a b : ℕ) (x : α) (ha : 1 ≤ a) (hb : 1 ≤ b)
    (hbn : b ≤ n) :
    jsSlice (List.replicate n x) (-(a : ℤ)) (-(b : ℤ)) = List.replicate (min n a - b) x := by
  simp only [jsSlice, List.length_replicate]
  rw [if_pos (by omega : -(a : ℤ) < 0), if_pos (by omega : -(b : ℤ) < 0)]
  rw [List.take_replicate, List.drop_replicate]
  congr 1
  omega

lemma jsGet_replicate (n i : ℕ) (x : JSNum) (h : i < n) :
    jsGet (List.replicate n x) i = x := by
  simp [jsGet, List.getD, List.getElem?_replicate, h]

lemma foldl_jadd_replicate (k : ℕ) (v a : ℚ) :
    List.foldl jadd (JSNum.fin a) (List.replicate k (JSNum.fin v)) = JSNum.fin (a + k * v) := by
  induction k generalizing a with
  | zero => simp
  | succ j ih =>
    rw [List.replicate_succ, List.foldl_cons]
    show List.foldl jadd (JSNum.fin (a + v)) (List.replicate j (JSNum.fin v)) = _
    rw [ih]
    congr 1
    push_cast
    ring

lemma sumJ_replicate (k : ℕ) (v : ℚ) :
    sumJ (List.replicate k (JSNum.fin v)) = JSNum.fin (k * v) := by
  unfold sumJ
  rw [foldl_jadd_replicate]
  congr 1
  ring

lemma foldl_jmax_replicate (k : ℕ) (v : ℚ) :
    List.foldl jmax (JSNum.fin v) (List.replicate k (JSNum.fin v)) = JSNum.fin v := by
  induction k with
  | zero => rfl
  | succ j ih =>
    rw [List.replicate_succ, List.foldl_cons]
    show List.foldl jmax (JSNum.fin (max v v)) (List.replicate j (JSNum.fin v)) = _
    rw [max_self]
    exact ih

lemma maxJ_replicate (k : ℕ) (hk : 1 ≤ k) (v : ℚ) :
    maxJ (List.replicate k (JSNum.fin v)) = JSNum.fin v := by
  cases k with
  | zero => omega
  | succ j =>
    unfold maxJ
    rw [List.replicate_succ, List.foldl_cons]
    exact foldl_jmax_replicate j v

lemma foldl_jmin_replicate (k : ℕ) (v : ℚ) :
    List.foldl jmin (JSNum.fin v) (List.replicate k (JSNum.fin v)) = JSNum.fin v := by
  induction k with
  | zero => rfl
  | succ j ih =>
    rw [List.replicate_succ, List.foldl_cons]
    show List.foldl jmin (JSNum.fin (min v v)) (List.replicate j (JSNum.fin v)) = _
    rw [min_self]
    exact ih

lemma minJ_replicate (k : ℕ) (hk : 1 ≤ k) (v : ℚ) :
    minJ (List.replicate k (JSNum.fin v)) = JSNum.fin v := by
  cases k with
  | zero => omega
  | succ j =>
    unfold minJ
    rw [List.replicate_succ, List.foldl_cons]
    exact foldl_jmin_replicate j v

lemma getLastD_replicate_succ (j : ℕ) (v d : ℚ) :
    (List.replicate (j + 1) v).getLastD d = v := by
  induction j generalizing d with
  | zero => simp
  | succ i ih =>
    rw [List.replicate_succ, List.getLastD_cons]
    exact ih v

lemma foldl_add_replicate (k : ℕ) (v a : ℚ) :
    List.foldl (fun x y => x + y) a (List.replicate k v) = a + k * v := by
  induction k generalizing a with
  | zero => simp
  | succ j ih =>
    rw [List.replicate_succ, List.foldl_cons, ih]
    push_cast
    ring

lemma foldl_max_replicate (k : ℕ) (v : ℚ) :
    List.foldl max v (List.replicate k v) = v := by
  induction k with
  | zero => rfl
  | succ j ih =>
    rw [List.replicate_succ, List.foldl_cons, max_self]
    exact ih

lemma maxQ_replicate (n : ℕ) (hn : 1 ≤ n) (v : ℚ) :
    maxQ (List.replicate n v) = v := by
  cases n with
  | zero => omega
  | succ j =>
    rw [List.replicate_succ]
    show List.foldl max v (List.replicate j v) = v
    exact foldl_max_replicate j v

lemma foldl_min_replicate (k : ℕ) (v : ℚ) :
    List.foldl min v (List.replicate k v) = v := by
  induction k with
  | zero => rfl
  | succ j ih =>
    rw [List.replicate_succ, List.foldl_cons, min_self]
    exact ih

lemma minQ_replicate (n : ℕ) (hn : 1 ≤ n) (v : ℚ) :
    minQ (List.replicate n v) = v := by
  cases n with
  | zero => omega
  | succ j =>
    rw [List.replicate_succ]
    show List.foldl min v (List.replicate j v) = v
    exact foldl_min_replicate j v

lemma zipWith_replicate_min {α β γ : Type} (f : α → β → γ) (k m : ℕ) (a : α) (b : β) :
    List.zipWith f (List.replicate k a) (List.replicate m b) =
      List.replicate (min k m) (f a b) := by
  induction k generalizing m with
  | zero => simp
  | succ j ih =>
    cases m with
    | zero => simp
    | succ i =>
      rw [List.replicate_succ, List.replicate_succ, List.zipWith_cons_cons, ih]
      rw [show min (j + 1) (i + 1) = min j i + 1 by omega, List.replicate_succ]

lemma foldl_gl_replicate_zero (k : ℕ) (p : ℚ × ℚ) :
    List.foldl (fun (p : ℚ × ℚ) d => if 0 < d then (p.1 + d, p.2) else (p.1, p.2 + |d|)) p
      (List.replicate k (0 : ℚ)) = p := by
  induction k generalizing p with
  | zero => rfl
  | succ j ih =>
    rw [List.replicate_succ, List.foldl_cons]
    have h : (if (0 : ℚ) < 0 then (p.1 + 0, p.2) else (p.1, p.2 + |(0 : ℚ)|)) = p := by
      rw [if_neg (lt_irrefl 0)]
      simp
    rw [h]
    exact ih p

lemma jfin_replicate (n : ℕ) (v : ℚ) :
    jfin (List.replicate n v) = List.replicate n (JSNum.fin v) := by
  simp [jfin]

lemma calculateSMA_replicate (n p : ℕ) (hn : 1 ≤ n) (hp : 1 ≤ p) (v : ℚ) :
    calculateSMA (List.replicate n v) p = v := by
  simp only [calculateSMA, List.length_replicate]
  rw [if_neg (by omega)]
  by_cases h : n < p
  · rw [if_pos h]
    cases n with
    | zero => omega
    | succ j => exact getLastD_replicate_succ j v 0
  · rw [if_neg h]
    rw [jsSliceFrom_replicate n p v hp]
    have hmin : min p n = p := by omega
    rw [hmin, List.length_replicate, foldl_add_replicate]
    rw [zero_add]
    rw [mul_comm]
    exact mul_div_cancel_right₀ v (by positivity)

lemma calculateEMA_replicate (n p : ℕ) (hn : 1 ≤ n) (v : ℚ) :
    calculateEMA (List.replicate n v) p = v := by
  cases n with
  | zero => omega
  | succ j =>
    rw [List.replicate_succ]
    show List.foldl _ v (List.replicate j v) = v
    have step : ∀ (m : ℕ),
        List.foldl (fun ema x => x * (2 / ((p : ℚ) + 1)) + ema * (1 - 2 / ((p : ℚ) + 1))) v
          (List.replicate m v) = v := by
      intro m
      induction m with
      | zero => rfl
      | succ i ih =>
        rw [List.replicate_succ, List.foldl_cons,
          show v * (2 / ((p : ℚ) + 1)) + v * (1 - 2 / ((p : ℚ) + 1)) = v by ring]
        exact ih
    exact step j

lemma calculateRSI_short (data : List ℚ) (p : ℕ) (h : data.length < p + 1) :
    calculateRSI data p = 50 := by
  simp only [calculateRSI]
  rw [if_pos h]

lemma calculateRSI_replicate_long (n : ℕ) (hn : 15 ≤ n) (v : ℚ) :
    calculateRSI (List.replicate n v) 14 = 100 := by
  simp only [calculateRSI, List.length_replicate]
  rw [if_neg (by omega)]
  rw [show max 1 (n - 14) = n - 14 by omega]
  rw [List.drop_replicate, List.drop_replicate, zipWith_replicate_min, sub_self,
    foldl_gl_replicate_zero]
  norm_num

lemma detectFairValueGap_flat (n : ℕ) (v : ℚ) :
    detectFairValueGap (List.replicate n (JSNum.fin v)) (List.replicate n (JSNum.fin v)) =
      false := by
  simp only [detectFairValueGap, List.length_replicate]
  by_cases h0 : n = 0
  · rw [if_pos (Or.inl h0)]
  · rw [if_neg (by omega)]
    by_cases h3 : n < 3
    · rw [if_pos (Or.inl h3)]
    · rw [if_neg (by omega)]
      rw [jsGet_replicate n (n - 3) _ (by omega), jsGet_replicate n (n - 3 + 2) _ (by omega)]
      by_cases hv : v = 0
      · rw [if_pos (Or.inr (Or.inr (by rw [hv])))]
      · rw [if_neg (by
          simp only [jIsFinite, jval]
          push_neg
          refine ⟨by simp, by simp, ?_⟩
          simp [hv])]
        simp only [jval, sub_self, abs_zero, zero_div]
        norm_num

lemma detectOrderBlock_flat (n : ℕ) (v : ℚ) (hv : 0 ≤ v) :
    detectOrderBlock (List.replicate n (JSNum.fin v)) = none := by
  simp only [detectOrderBlock, List.length_replicate]
  by_cases h5 : n < 5
  · rw [if_pos (Or.inr h5)]
  · rw [if_neg (by omega)]
    rw [show (-5 : ℤ) = -((5 : ℕ) : ℤ) by norm_num]
    rw [jsSliceFrom_replicate n 5 _ (by omega), show min 5 n = 5 by omega]
    rw [sumJ_replicate, List.length_replicate]
    rw [jsGet_replicate n (n - 1) _ (by omega)]
    simp only [jdivNat, jIsFinite, jval]
    rw [if_neg (by simp)]
    have havg : ((5 : ℕ) : ℚ) * v / ((5 : ℕ) : ℚ) = v := by
      push_cast
      field_simp
    simp only [havg]
    rw [if_neg (by nlinarith), if_neg (by nlinarith)]

lemma detectVolumeSurge_flat (n : ℕ) (v : ℚ) (hv : 0 ≤ v) :
    detectVolumeSurge (List.replicate n (JSNum.fin v)) = false := by
  simp only [detectVolumeSurge, List.length_replicate]
  by_cases h10 : n < 10
  · rw [if_pos (Or.inr h10)]
  · rw [if_neg (by omega)]
    rw [show (-10 : ℤ) = -((10 : ℕ) : ℤ) by norm_num]
    rw [jsSliceFrom_replicate n 10 _ (by omega), show min 10 n = 10 by omega]
    rw [sumJ_replicate, List.length_replicate]
    rw [jsGet_replicate 10 (10 - 1) _ (by omega)]
    simp only [jdivNat, jIsFinite, jval]
    rw [if_neg (by simp)]
    have havg : ((10 : ℕ) : ℚ) * v / ((10 : ℕ) : ℚ) = v := by
      push_cast
      field_simp
    simp only [havg]
    simp only [decide_eq_false_iff_not]
    nlinarith

lemma detectLiquiditySweep_flat (n : ℕ) (v : ℚ) :
    detectLiquiditySweep (List.replicate n (JSNum.fin v)) (List.replicate n (JSNum.fin v))
      (JSNum.fin v) = none := by
  simp only [detectLiquiditySweep, List.length_replicate]
  by_cases h0 : n = 0
  · rw [if_pos (Or.inl h0)]
  · rw [if_neg (by omega)]
    by_cases h5 : n < 5
    · rw [if_pos (Or.inl h5)]
    · rw [if_neg (by omega)]
      rw [show (-6 : ℤ) = -((6 : ℕ) : ℤ) by norm_num,
        show (-1 : ℤ) = -((1 : ℕ) : ℤ) by norm_num]
      rw [jsSlice_replicate_negs n 6 1 _ (by omega) (by omega) (by omega)]
      rw [maxJ_replicate _ (by omega), minJ_replicate _ (by omega)]
      rw [jsGet_replicate n (n - 2) _ (by omega)]
      rw [if_neg (by simp [jIsFinite])]
      rw [if_neg (by
        rintro ⟨-, hlt⟩
        simp only [jlt, decide_eq_true_eq] at hlt
        exact absurd hlt (lt_irrefl v))]
      rw [if_neg (by
        rintro ⟨-, hlt⟩
        simp only [jlt, decide_eq_true_eq] at hlt
        exact absurd hlt (lt_irrefl v))]

lemma detectMitigationBlock_flat (n : ℕ) (v : ℚ) :
    detectMitigationBlock (List.replicate n (JSNum.fin v)) = none := by
  simp only [detectMitigationBlock, List.length_replicate]
  by_cases h6 : n < 6
  · rw [if_pos (Or.inr h6)]
  · rw [if_neg (by omega)]
    rw [jsGet_replicate n (n - 1) _ (by omega)]
    rw [show (-6 : ℤ) = -((6 : ℕ) : ℤ) by norm_num,
      show (-2 : ℤ) = -((2 : ℕ) : ℤ) by norm_num]
    rw [jsSlice_replicate_negs n 6 2 _ (by omega) (by omega) (by omega)]
    rw [maxJ_replicate _ (by omega), minJ_replicate _ (by omega)]
    rw [if_neg (by simp [jIsFinite])]
    rw [if_neg (fun h => absurd h.2 (lt_irrefl (jval (JSNum.fin v))))]
    rw [if_neg (fun h => absurd h.2 (lt_irrefl (jval (JSNum.fin v))))]

lemma detectBreakerBlock_flat (n : ℕ) (v : ℚ) :
    detectBreakerBlock (List.replicate n (JSNum.fin v)) = none := by
  simp only [detectBreakerBlock, List.length_replicate]
  by_cases h10 : n < 10
  · rw [if_pos (Or.inr h10)]
  · rw [if_neg (by omega)]
    rw [show (-10 : ℤ) = -((10 : ℕ) : ℤ) by norm_num,
      show (-5 : ℤ) = -((5 : ℕ) : ℤ) by norm_num]
    rw [jsSlice_replicate_negs n 10 5 _ (by omega) (by omega) (by omega)]
    rw [jsSliceFrom_replicate n 5 _ (by omega)]
    rw [maxJ_replicate _ (by omega), minJ_replicate _ (by omega),
      maxJ_replicate _ (by omega), minJ_replicate _ (by omega)]
    rw [if_neg (by simp [jIsFinite])]
    rw [if_neg (fun h => absurd h.1 (lt_irrefl (jval (JSNum.fin v))))]
    rw [if_neg (fun h => absurd h.1 (lt_irrefl (jval (JSNum.fin v))))]

lemma detectBOS_flat (n : ℕ) (v : ℚ) (hv : 0 ≤ v) :
    detectBOS (List.replicate n (JSNum.fin v)) (List.replicate n (JSNum.fin v)) = none := by
  simp only [detectBOS, List.length_replicate]
  by_cases h0 : n = 0
  · rw [if_pos (Or.inl h0)]
  · rw [if_neg (by omega)]
    by_cases h6 : n < 6
    · rw [if_pos (Or.inl h6)]
    · rw [if_neg (by omega)]
      rw [jsGet_replicate n (n - 3) _ (by omega), jsGet_replicate n (n - 1) _ (by omega)]
      rw [if_neg (by simp [jIsFinite])]
      simp only [jval]
      rw [if_neg (by nlinarith), if_neg (by nlinarith)]

lemma detectCHoCH_flat (n : ℕ) (v : ℚ) (hv : 0 ≤ v) :
    detectCHoCH (List.replicate n (JSNum.fin v)) (List.replicate n (JSNum.fin v)) = none := by
  simp only [detectCHoCH, List.length_replicate]
  by_cases h0 : n = 0
  · rw [if_pos (Or.inl h0)]
  · rw [if_neg (by omega)]
    by_cases h8 : n < 8
    · rw [if_pos (Or.inl h8)]
    · rw [if_neg (by omega)]
      rw [jsGet_replicate n (n - 1) _ (by omega), jsGet_replicate n (n - 3) _ (by omega)]
      rw [if_neg (by simp [jIsFinite])]
      simp only [jval]
      rw [if_neg (by
        rintro ⟨hbh, -⟩
        simp only [decide_eq_true_eq] at hbh
        nlinarith)]
      rw [if_neg (by
        rintro ⟨hbl, -⟩
        simp only [decide_eq_true_eq] at hbl
        nlinarith)]

lemma fibZoneOf_flat (v : ℚ) (n : ℕ) (hn : 1 ≤ n) :
    fibZoneOf (flatStock v n) = Fib.NEUTRAL := by
  simp only [fibZoneOf, lookbackHighOf, lookbackLowOf, flatStock, List.length_replicate,
    getFibZone]
  rw [if_pos (show n ≠ 0 by omega), if_pos (show n ≠ 0 by omega)]
  rw [show (-20 : ℤ) = -((20 : ℕ) : ℤ) by norm_num]
  rw [jsSliceFrom_replicate n 20 v (by omega), maxQ_replicate _ (by omega),
    minQ_replicate _ (by omega)]
  have hmid : v + (v - v) * (1 / 2) = v := by ring
  simp only [hmid]
  rw [if_neg (lt_irrefl v), if_neg (lt_irrefl v)]

lemma trendBiasOf_flat (v : ℚ) (n : ℕ) (hv : 0 ≤ v) :
    trendBiasOf (flatStock v n) = Trend.NEUTRAL := by
  have hbos : bosOf (flatStock v n) = none := by
    simp only [bosOf, flatStock, jfin_replicate]
    exact detectBOS_flat n v hv
  have hchoch : chochOf (flatStock v n) = none := by
    simp only [chochOf, flatStock, jfin_replicate]
    exact detectCHoCH_flat n v hv
  simp [trendBiasOf, getTrendBias, hbos, hchoch]

lemma smcConfidenceOf_flat (v : ℚ) (n : ℕ) (hv : 0 ≤ v) (hn : 1 ≤ n) :
    smcConfidenceOf (flatStock v n) = 0 := by
  have h1 : bosOf (flatStock v n) = none := by
    simp only [bosOf, flatStock, jfin_replicate]
    exact detectBOS_flat n v hv
  have h2 : chochOf (flatStock v n) = none := by
    simp only [chochOf, flatStock, jfin_replicate]
    exact detectCHoCH_flat n v hv
  have h3 : orderBlockOf (flatStock v n) = none := by
    simp only [orderBlockOf, flatStock, jfin_replicate]
    exact detectOrderBlock_flat n v hv
  have h4 : liquiditySweepOf (flatStock v n) = none := by
    simp only [liquiditySweepOf, flatStock, jfin_replicate]
    exact detectLiquiditySweep_flat n v
  have h5 : mitigationOf (flatStock v n) = none := by
    simp only [mitigationOf, flatStock, jfin_replicate]
    exact detectMitigationBlock_flat n v
  have h6 : breakerOf (flatStock v n) = none := by
    simp only [breakerOf, flatStock, jfin_replicate]
    exact detectBreakerBlock_flat n v
  have h7 : hasFVGOf (flatStock v n) = false := by
    simp only [hasFVGOf, flatStock, jfin_replicate]
    exact detectFairValueGap_flat n v
  have h8 : volumeSurgeOf (flatStock v n) = false := by
    simp only [volumeSurgeOf, flatStock, jfin_replicate]
    exact detectVolumeSurge_flat n v hv
  simp [smcConfidenceOf, smcInputsOf, computeSMCConfidence, h1, h2, h3, h4, h5, h6, h7, h8,
    fibZoneOf_flat v n hn, trendBiasOf_flat v n hv]

lemma indicators_flat (v : ℚ) (n : ℕ) (hn : 1 ≤ n) :
    sma20Of (flatStock v n) = v ∧ ema50Of (flatStock v n) = v ∧ ema200Of (flatStock v n) = v ∧
      changeOf (flatStock v n) = 0 := by
  refine ⟨?_, ?_, ?_, ?_⟩
  · exact calculateSMA_replicate n 20 hn (by omega) v
  · exact calculateEMA_replicate n 50 hn v
  · exact calculateEMA_replicate n 200 hn v
  · simp only [changeOf, flatStock]
    by_cases hv : v = 0
    · rw [if_neg (by simp [hv])]
    · rw [if_pos hv]
      rw [sub_self, zero_div, zero_mul]

lemma indicatorScoreOf_flat_le (v : ℚ) (n : ℕ) (hn : 1 ≤ n) :
    indicatorScoreOf (flatStock v n) ≤ 4 ∧ indicatorBuyOf (flatStock v n) = false ∧
      indicatorSellOf (flatStock v n) = false := by
  obtain ⟨hsma, hema50, hema200, hchg⟩ := indicators_flat v n hn
  have hcur : (flatStock v n).current = v := rfl
  have haS : aboveSMA20Of (flatStock v n) = false := by
    simp [aboveSMA20Of, hsma, hcur]
  have haE : aboveEMA50Of (flatStock v n) = false := by
    simp [aboveEMA50Of, hema50, hcur]
  have hbull : emaBullishOf (flatStock v n) = false := by
    simp [emaBullishOf, hema50, hema200]
  have hbear : emaBearishOf (flatStock v n) = false := by
    simp [emaBearishOf, hema50, hema200]
  have hbuy : indicatorBuyOf (flatStock v n) = false := by
    simp [indicatorBuyOf, haS]
  have hsell : indicatorSellOf (flatStock v n) = false := by
    simp [indicatorSellOf, hbear]
  refine ⟨?_, hbuy, hsell⟩
  simp only [indicatorScoreOf, hbuy, hsell, haS, haE, hbull]
  simp only [Bool.false_eq_true, if_false, Bool.and_self]
  split_ifs <;> omega

/-- Claim C4 counterexample: on a flat series of value -1 (length 6) the
BOS and order-block detectors fire BULLISH, and a flat series of 15 equal
points takes the RSI = 100 branch (zero average loss), not the RSI = 50
branch. -/
theorem flat_input_counterexample :
    bosOf (flatStock (-1) 6) = some Dir.BULLISH ∧
      orderBlockOf (flatStock (-1) 6) = some Dir.BULLISH ∧
      rsiOf (flatStock 1 15) = 100 := by
  refine ⟨?_, ?_, ?_⟩
  · have h : bosOf (flatStock (-1) 6) =
        detectBOS (List.replicate 6 (JSNum.fin (-1))) (List.replicate 6 (JSNum.fin (-1))) := by
      simp only [bosOf, flatStock, jfin_replicate]
    rw [h]
    simp only [detectBOS, List.length_replicate]
    rw [if_neg (by omega), if_neg (by omega)]
    rw [jsGet_replicate 6 (6 - 3) _ (by omega), jsGet_replicate 6 (6 - 1) _ (by omega)]
    rw [if_neg (by simp [jIsFinite])]
    simp only [jval]
    rw [if_pos (by norm_num)]
  · have h : orderBlockOf (flatStock (-1) 6) =
        detectOrderBlock (List.replicate 6 (JSNum.fin (-1))) := by
      simp only [orderBlockOf, flatStock, jfin_replicate]
    rw [h]
    simp only [detectOrderBlock, List.length_replicate]
    rw [if_neg (by omega)]
    rw [show (-5 : ℤ) = -((5 : ℕ) : ℤ) by norm_num]
    rw [jsSliceFrom_replicate 6 5 _ (by omega), show min 5 6 = 5 by omega]
    rw [sumJ_replicate, List.length_replicate]
    rw [jsGet_replicate 6 (6 - 1) _ (by omega)]
    simp only [jdivNat, jIsFinite, jval]
    rw [if_neg (by simp)]
    rw [if_pos (by norm_num)]
  · have h : rsiOf (flatStock 1 15) = calculateRSI (List.replicate 15 (1 : ℚ)) 14 := rfl
    rw [h]
    exact calculateRSI_replicate_long 15 (by omega) 1

/-- Claim C4 (amended): for every non-empty flat input whose common value is
nonnegative, every market-structure detector reports its no-signal value,
the trend bias is NEUTRAL with structure confidence 0, and
`generateSMCSignal` returns HOLD with confidence capped at 2; `calculateRSI`
takes its neutral RSI = 50 branch exactly when the series has fewer than 15
points, and returns 100 (the zero-average-loss branch) for 15 or more equal
points. -/
theorem flat_input_hold (v : ℚ) (n : ℕ) (hv : 0 ≤ v) (hn : 1 ≤ n) :
    hasFVGOf (flatStock v n) = false ∧
    orderBlockOf (flatStock v n) = none ∧
    volumeSurgeOf (flatStock v n) = false ∧
    liquiditySweepOf (flatStock v n) = none ∧
    mitigationOf (flatStock v n) = none ∧
    breakerOf (flatStock v n) = none ∧
    bosOf (flatStock v n) = none ∧
    chochOf (flatStock v n) = none ∧
    trendBiasOf (flatStock v n) = Trend.NEUTRAL ∧
    smcConfidenceOf (flatStock v n) = 0 ∧
    (n < 15 → rsiOf (flatStock v n) = 50) ∧
    (15 ≤ n → rsiOf (flatStock v n) = 100) ∧
    (generateSMCSignal (flatStock v n)).signal = Signal.HOLD ∧
    (generateSMCSignal (flatStock v n)).confidence ≤ 2 := by
  obtain ⟨hscore, hbuy, hsell⟩ := indicatorScoreOf_flat_le v n hn
  have hsmc := smcConfidenceOf_flat v n hv hn
  have hsig : signalOf (flatStock v n) = Signal.HOLD := by
    have h18 : ¬(18 ≤ indicatorScoreOf (flatStock v n)) := by omega
    simp [signalOf, hbuy, hsell, h18]
  have hconf : (generateSMCSignal (flatStock v n)).confidence ≤ 2 := by
    have h : (generateSMCSignal (flatStock v n)).confidence =
        finalConfidenceOf (flatStock v n) := rfl
    rw [h]
    simp only [finalConfidenceOf, hsmc]
    have hle : (indicatorScoreOf (flatStock v n) : ℚ) * (4 / 10) + ((0 : ℕ) : ℚ) * (6 / 10) ≤
        8 / 5 := by
      have : (indicatorScoreOf (flatStock v n) : ℚ) ≤ 4 := by
        exact_mod_cast hscore
      push_cast
      nlinarith
    have h2 : round ((indicatorScoreOf (flatStock v n) : ℚ) * (4 / 10) +
        ((0 : ℕ) : ℚ) * (6 / 10)) ≤ 2 := by
      calc round ((indicatorScoreOf (flatStock v n) : ℚ) * (4 / 10) + ((0 : ℕ) : ℚ) * (6 / 10)) ≤
          round ((8 : ℚ) / 5) := round_mono_q hle
        _ = 2 := by norm_num [round_eq]
    exact le_trans (min_le_right _ _) h2
  refine ⟨?_, ?_, ?_, ?_, ?_, ?_, ?_, ?_, trendBiasOf_flat v n hv, hsmc, ?_, ?_, hsig, hconf⟩
  · simp only [hasFVGOf, flatStock, jfin_replicate]
    exact detectFairValueGap_flat n v
  · simp only [orderBlockOf, flatStock, jfin_replicate]
    exact detectOrderBlock_flat n v hv
  · simp only [volumeSurgeOf, flatStock, jfin_replicate]
    exact detectVolumeSurge_flat n v hv
  · simp only [liquiditySweepOf, flatStock, jfin_replicate]
    exact detectLiquiditySweep_flat n v
  · simp only [mitigationOf, flatStock, jfin_replicate]
    exact detectMitigationBlock_flat n v
  · simp only [breakerOf, flatStock, jfin_replicate]
    exact detectBreakerBlock_flat n v
  · simp only [bosOf, flatStock, jfin_replicate]
    exact detectBOS_flat n v hv
  · simp only [chochOf, flatStock, jfin_replicate]
    exact detectCHoCH_flat n v hv
  · intro h15
    have h : rsiOf (flatStock v n) = calculateRSI (List.replicate n v) 14 := rfl
    rw [h]
    exact calculateRSI_short _ 14 (by simpa using h15)
  · intro h15
    have h : rsiOf (flatStock v n) = calculateRSI (List.replicate n v) 14 := rfl
    rw [h]
    exact calculateRSI_replicate_long n h15 v

theorem flat_input_hold_witness :
    (0 : ℚ) ≤ 1 ∧ 1 ≤ 5 ∧ (generateSMCSignal (flatStock 1 5)).signal = Signal.HOLD ∧
      (generateSMCSignal (flatStock 1 5)).confidence ≤ 2 := by
  have h := flat_input_hold 1 5 (by norm_num) (by omega)
  exact ⟨by norm_num, by omega, h.2.2.2.2.2.2.2.2.2.2.2.2.1, h.2.2.2.2.2.2.2.2.2.2.2.2.2⟩
